import Mathlib

/-!
Verification development for the QARMA speculative parallel-execution engine
("quantum register/qubit" framework). The definitions below are a shallow
embedding of the C sources:
  kernel/quantum/quantum_register.c   (register, qubits, execute, wait, collapse library)
  kernel/quantum/quantum_scheduler.c  (predictive scheduler)
  quantum adaptive execution module   (quantum_adaptive_check and friends)
  quantum AI observer module          (learning database, observe_complete)

Modelling conventions:
  - Machine memory is byte addressable, `Mem := Nat → Nat`; pointers are
    natural numbers with 0 standing for NULL. `memcpy`, `memset` and `memcmp`
    are defined over this memory.
  - C function pointers (qubit functions, evaluate/combine/custom callbacks)
    become Lean functions or `Option` of Lean functions; a qubit function is
    named by an identifier interpreted by an environment `funSem`.
  - Heap allocation is modelled by explicit Bool oracles for the calls whose
    failure the source handles (qubit contexts, result buffers), and by a
    caller-supplied fresh address where the source allocates a buffer.
  - C `float` arithmetic is modelled exactly over `Rat`; 32-bit unsigned
    arithmetic is `Nat` with explicit `% 2^32`; C `int` division is the
    truncating `Int.tdiv`.
-/

namespace QARMA

/-! ## Byte-addressable memory model -/

/-- Byte-addressable memory: address to byte value. -/
abbrev Mem := Nat → Nat

/-- C memcpy dst src n: bytes [dst, dst+n) take the values of [src, src+n). -/
def memcpy (dst src n : Nat) (m : Mem) : Mem :=
  fun a => if dst ≤ a ∧ a < dst + n then m (src + (a - dst)) else m a

/-- C memset(dst, 0, n). -/
def memset0 (dst n : Nat) (m : Mem) : Mem :=
  fun a => if dst ≤ a ∧ a < dst + n then 0 else m a

/-- C memcmp(p, q, n) == 0: the n bytes at p and q agree. -/
def memcmpEq (m : Mem) (p q n : Nat) : Bool :=
  (List.range n).all fun i => m (p + i) == m (q + i)

/-- Writing a 32-bit pointer value little-endian at addr, as
`*(void**)output = ptr` does on the 32-bit target. -/
def storePtr32 (addr v : Nat) (m : Mem) : Mem :=
  fun a => if addr ≤ a ∧ a < addr + 4 then v / 256 ^ (a - addr) % 256 else m a

/-- Cast an `int` value to `uint32_t` (two's complement). -/
def toU32 (i : Int) : Nat := (i % (2 ^ 32 : Int)).toNat

/-! ## Data model: qubits, strategies, registers
Translated from QARMA_QUBIT / QARMA_QUANTUM_REGISTER and associated structs in
quantum_register.h. -/

/-- QARMA_QUBIT_STATUS. -/
inductive QubitStatus where
  | pending
  | running
  | completed
  | failed
  | skipped
deriving DecidableEq, Repr, Inhabited

/-- QARMA_COLLAPSE_STRATEGY (13 real strategies; COLLAPSE_STRATEGY_COUNT = 13). -/
inductive CollapseStrategy where
  | firstWins
  | lastWins
  | best
  | vote
  | combine
  | validate
  | custom
  | fuzzy
  | progressive
  | speculative
  | multidim
  | temporal
  | ensemble
deriving DecidableEq, Repr, Inhabited

/-- Numeric value of the strategy enum tag. -/
def strategyIdx : CollapseStrategy → Nat
  | .firstWins => 0
  | .lastWins => 1
  | .best => 2
  | .vote => 3
  | .combine => 4
  | .validate => 5
  | .custom => 6
  | .fuzzy => 7
  | .progressive => 8
  | .speculative => 9
  | .multidim => 10
  | .temporal => 11
  | .ensemble => 12

/-- Strategy with a given enum tag (total on 0..12, wrapping like a C cast
of a small value). -/
def strategyOfIdx : Nat → CollapseStrategy
  | 0 => .firstWins
  | 1 => .lastWins
  | 2 => .best
  | 3 => .vote
  | 4 => .combine
  | 5 => .validate
  | 6 => .custom
  | 7 => .fuzzy
  | 8 => .progressive
  | 9 => .speculative
  | 10 => .multidim
  | 11 => .temporal
  | _ => .ensemble

/-- COLLAPSE_STRATEGY_COUNT. -/
def COLLAPSE_STRATEGY_COUNT : Nat := 13

/-- struct QARMA_QUBIT. The C function pointer becomes `Option Nat`: an
identifier into a function environment, `none` standing for NULL; `data`,
`result` are pointers (0 = NULL). -/
structure QARMA_QUBIT where
  enabled : Bool := false
  status : QubitStatus := .pending
  function : Option Nat := none
  data : Nat := 0
  result : Nat := 0
  result_size : Nat := 0
  start_time : Nat := 0
  end_time : Nat := 0
  assigned_core : Nat := 0
  id : Nat := 0
deriving DecidableEq, Repr, Inhabited

/-- struct QARMA_MULTIDIM_CRITERIA. Evaluator function pointers become
optional Lean functions reading the current memory at a result pointer. -/
structure QARMA_MULTIDIM_CRITERIA where
  quality_func : Option (Mem → Nat → Int) := none
  speed_func : Option (Mem → Nat → Int) := none
  resource_func : Option (Mem → Nat → Int) := none
  quality_weight : Int := 0
  speed_weight : Int := 0
  resource_weight : Int := 0

/-- struct QARMA_TEMPORAL_HISTORY. The int array quality_history becomes an
optional total function from indices (the C code indexes it unboundedly). -/
structure QARMA_TEMPORAL_HISTORY where
  timestamps : Option (Nat → Nat) := none
  quality_history : Option (Nat → Int) := none
  history_size : Nat := 0
  window_size : Nat := 0
  trend_weight : Int := 0

/-- struct QARMA_ENSEMBLE_CONFIG: arrays strategies[3] and weights[3] with an
active count, modelled as index functions plus the count. -/
structure QARMA_ENSEMBLE_CONFIG where
  strategies : Nat → CollapseStrategy := fun _ => .firstWins
  weights : Nat → Int := fun _ => 0
  num_strategies : Nat := 0

/-- quantum_adaptive_policy_t. -/
inductive AdaptivePolicy where
  | nonePolicy
  | timeout
  | failureRate
  | quality
  | aggressive
deriving DecidableEq, Repr, Inhabited

/-- quantum_adaptive_thresholds_t (floats modelled as Rat). -/
structure quantum_adaptive_thresholds_t where
  timeout_ms : Nat
  failure_threshold : Rat
  quality_threshold : Rat
  check_interval_ms : Nat
deriving DecidableEq, Repr

/-- quantum_adaptive_state_t. -/
structure quantum_adaptive_state_t where
  policy : AdaptivePolicy
  thresholds : quantum_adaptive_thresholds_t
  execution_start_time : Nat := 0
  last_check_time : Nat := 0
  switch_count : Nat := 0
  original_strategy : CollapseStrategy := .firstWins
  current_strategy : CollapseStrategy := .firstWins
  has_switched : Bool := false
  completed_at_last_check : Nat := 0
  failed_at_last_check : Nat := 0
  current_quality : Rat := 1
deriving DecidableEq, Repr

/-- struct QARMA_QUANTUM_REGISTER. `count` is `qubits.length`; the callback
pointers become optional Lean functions: `evaluate` reads memory at a result
pointer and yields an int score, `combine` and `custom_collapse` transform
memory given the result pointers and the output pointer. -/
structure QARMA_QUANTUM_REGISTER where
  qubits : List QARMA_QUBIT := []
  strategy : CollapseStrategy := .firstWins
  custom_collapse : Option (List Nat → Nat → Mem → Mem) := none
  evaluate : Option (Mem → Nat → Int) := none
  combine : Option (List Nat → Nat → Mem → Mem) := none
  multidim : Option QARMA_MULTIDIM_CRITERIA := none
  temporal : Option QARMA_TEMPORAL_HISTORY := none
  ensemble : Option QARMA_ENSEMBLE_CONFIG := none
  collapse_output : Nat := 0
  result_size : Nat := 0
  collapsed : Bool := false
  completed_count : Nat := 0
  failed_count : Nat := 0
  wait_for_all : Bool := true
  executing : Bool := false
  adaptive_state : Option quantum_adaptive_state_t := none

instance : Inhabited QARMA_QUANTUM_REGISTER := ⟨{}⟩

/-- Replace qubit `index` (no-op out of range, like writing through a
bounds-checked index). -/
def setQubit (reg : QARMA_QUANTUM_REGISTER) (index : Nat) (q : QARMA_QUBIT) :
    QARMA_QUANTUM_REGISTER :=
  { reg with qubits := reg.qubits.set index q }

/-! ## Register management (quantum_register.c) -/

/-- qarma_quantum_register_create: rejects qubit_count = 0, else builds a
register of pending, disabled qubits with ids 0..count-1 and the default
configuration. Allocation is assumed to succeed. -/
def qarma_quantum_register_create (qubit_count : Nat) :
    Option QARMA_QUANTUM_REGISTER :=
  if qubit_count = 0 then none
  else some
    { qubits := (List.range qubit_count).map fun i =>
        { enabled := false, status := .pending, id := i }
      strategy := .firstWins
      wait_for_all := true
      collapsed := false
      executing := false
      completed_count := 0
      failed_count := 0 }

/-- qarma_quantum_register_reset. -/
def qarma_quantum_register_reset (reg : QARMA_QUANTUM_REGISTER) :
    QARMA_QUANTUM_REGISTER :=
  { reg with
    completed_count := 0
    failed_count := 0
    collapsed := false
    executing := false
    qubits := reg.qubits.map fun q =>
      { q with status := .pending, start_time := 0, end_time := 0,
               assigned_core := 0 } }

/-- qubit_allocate_result with an explicit allocation oracle: fails on
size 0 or allocation failure, else installs the zeroed buffer at `fresh`. -/
def qubit_allocate_result (q : QARMA_QUBIT) (size : Nat) (allocOk : Bool)
    (fresh : Nat) (m : Mem) : Option (QARMA_QUBIT × Mem) :=
  if size = 0 then none
  else if allocOk then
    some ({ q with result := fresh, result_size := size }, memset0 fresh size m)
  else none

/-- qarma_qubit_init. Mirrors the source order: the qubit is written
(function, data, enabled, status) before the result buffer is allocated, so
an allocation failure still leaves those writes behind. `allocOk` is the
outcome of the heap_alloc for the result buffer, `fresh` its address. -/
def qarma_qubit_init (reg : QARMA_QUANTUM_REGISTER) (index : Nat)
    (function : Option Nat) (data : Nat) (result_size : Nat)
    (allocOk : Bool) (fresh : Nat) (m : Mem) :
    Bool × QARMA_QUANTUM_REGISTER × Mem :=
  if index ≥ reg.qubits.length ∨ function = none then (false, reg, m)
  else
    let q := reg.qubits.getD index default
    let q1 := { q with function := function, data := data, enabled := true,
                       status := .pending }
    if result_size > 0 then
      match qubit_allocate_result q1 result_size allocOk fresh m with
      | some (q2, m2) => (true, setQubit reg index q2, m2)
      | none => (false, setQubit reg index q1, m)
    else (true, setQubit reg index q1, m)

/-- qarma_qubit_set_enabled: disabling also marks the qubit skipped. -/
def qarma_qubit_set_enabled (reg : QARMA_QUANTUM_REGISTER) (index : Nat)
    (enabled : Bool) : QARMA_QUANTUM_REGISTER :=
  if index ≥ reg.qubits.length then reg
  else
    let q := reg.qubits.getD index default
    let q1 := { q with enabled := enabled }
    let q2 := if enabled then q1 else { q1 with status := .skipped }
    setQubit reg index q2

/-- qarma_quantum_is_complete: all enabled qubits have finished. -/
def qarma_quantum_is_complete (reg : QARMA_QUANTUM_REGISTER) : Bool :=
  let enabled_count := (reg.qubits.filter (·.enabled)).length
  reg.completed_count + reg.failed_count ≥ enabled_count

/-- qarma_quantum_wait, fuel-indexed. The C body is
`while (!qarma_quantum_is_complete(reg)) { }` with `(void)timeout_ms`:
nothing in the loop changes the register, so each iteration re-tests the same
condition. `fuel` bounds the number of iterations we observe; `none` means
the loop is still spinning after `fuel` iterations. -/
def qarma_quantum_wait_fuel (fuel : Nat) (reg : QARMA_QUANTUM_REGISTER)
    (timeout_ms : Nat) : Option Bool :=
  if qarma_quantum_is_complete reg then some true
  else
    match fuel with
    | 0 => none
    | f + 1 => qarma_quantum_wait_fuel f reg timeout_ms

/-! ## Execution (qarma_quantum_execute and qubit_execute_wrapper) -/

/-- qubit_execute_wrapper, acting on one qubit. `funSem` interprets a qubit
function identifier as its effect on memory given the data pointer. Mirrors
the source: a NULL function means the wrapper returns before touching the
qubit; otherwise the qubit passes through running (with zeroed timestamps,
per the TODOs in the source) to completed and reports one completion. The
returned Bool is whether completed_count was incremented. -/
def qubit_execute_wrapper (funSem : Nat → Nat → Mem → Mem)
    (q : QARMA_QUBIT) (m : Mem) : QARMA_QUBIT × Bool × Mem :=
  match q.function with
  | none => (q, false, m)
  | some f =>
      let q1 := { q with status := .running, start_time := 0 }
      let m1 := funSem f q1.data m
      (⟨{ q1 with end_time := 0, status := .completed }, true, m1⟩)

/-- Result of the dispatch loop inside qarma_quantum_execute. -/
structure ExecLoopResult where
  qubits : List QARMA_QUBIT
  completed : Nat
  failed : Nat
  dispatched : Nat
  mem : Mem

/-- The dispatch loop of qarma_quantum_execute over the qubit array starting
at absolute index `i`. `ctxAlloc i` is the outcome of the heap_alloc of the
execution context for qubit i: on failure the qubit is marked failed and
failed_count incremented; disabled qubits are marked skipped; otherwise the
wrapper runs the qubit immediately (direct execution mode of the source) and
`dispatched` is incremented. -/
def qarma_execute_loop (funSem : Nat → Nat → Mem → Mem)
    (ctxAlloc : Nat → Bool) :
    List QARMA_QUBIT → Nat → Mem → ExecLoopResult
  | [], _, m => ⟨[], 0, 0, 0, m⟩
  | q :: rest, i, m =>
      if q.enabled = false then
        let r := qarma_execute_loop funSem ctxAlloc rest (i + 1) m
        ⟨{ q with status := .skipped } :: r.qubits, r.completed, r.failed,
          r.dispatched, r.mem⟩
      else if ctxAlloc i then
        let w := qubit_execute_wrapper funSem q m
        let r := qarma_execute_loop funSem ctxAlloc rest (i + 1) w.2.2
        ⟨w.1 :: r.qubits, (if w.2.1 then 1 else 0) + r.completed, r.failed,
          1 + r.dispatched, r.mem⟩
      else
        let r := qarma_execute_loop funSem ctxAlloc rest (i + 1) m
        ⟨{ q with status := .failed } :: r.qubits, r.completed, 1 + r.failed,
          r.dispatched, r.mem⟩

/-- qarma_quantum_execute. Returns (dispatch succeeded, register, memory).
Refuses re-entry while executing; resets the counters and collapsed flag;
the best-effort core request has no observable effect on the register and is
not modelled; finally reports whether any qubit was dispatched. -/
def qarma_quantum_execute (funSem : Nat → Nat → Mem → Mem)
    (ctxAlloc : Nat → Bool) (reg : QARMA_QUANTUM_REGISTER) (m : Mem) :
    Bool × QARMA_QUANTUM_REGISTER × Mem :=
  if reg.executing then (false, reg, m)
  else
    let r := qarma_execute_loop funSem ctxAlloc reg.qubits 0 m
    (decide (r.dispatched > 0),
     { reg with qubits := r.qubits, completed_count := r.completed,
                failed_count := r.failed, collapsed := false,
                executing := false },
     r.mem)

/-- The dispatch loop dispatches something iff some qubit is enabled and its
context allocation succeeds. -/
theorem qarma_execute_loop_dispatched_pos (funSem : Nat → Nat → Mem → Mem)
    (ctxAlloc : Nat → Bool) :
    ∀ (qs : List QARMA_QUBIT) (i : Nat) (m : Mem),
      0 < (qarma_execute_loop funSem ctxAlloc qs i m).dispatched ↔
        ∃ j, j < qs.length ∧ (qs.getD j default).enabled = true ∧
          ctxAlloc (i + j) = true := by
  intro qs
  induction qs with
  | nil => intro i m; simp [qarma_execute_loop]
  | cons q rest ih =>
      intro i m
      by_cases hq : q.enabled = false
      · rw [qarma_execute_loop, if_pos hq]
        simp only []
        rw [ih (i + 1) m]
        constructor
        · rintro ⟨j, hj, hje, hja⟩
          exact ⟨j + 1, by simpa using hj,
            by simpa using hje, by
              have : i + (j + 1) = i + 1 + j := by omega
              rw [this]; exact hja⟩
        · rintro ⟨j, hj, hje, hja⟩
          match j with
          | 0 => simp at hje; rw [hje] at hq; exact absurd hq (by simp)
          | j' + 1 =>
              refine ⟨j', by simpa using hj, by simpa using hje, ?_⟩
              have : i + 1 + j' = i + (j' + 1) := by omega
              rw [this]; exact hja
      · have hq' : q.enabled = true := by
          cases h : q.enabled
          · exact absurd h hq
          · rfl
        by_cases ha : ctxAlloc i
        · rw [qarma_execute_loop, if_neg hq, if_pos ha]
          simp only []
          constructor
          · intro _
            exact ⟨0, by simp, by simpa using hq', by simpa using ha⟩
          · intro _; omega
        · rw [qarma_execute_loop, if_neg hq, if_neg ha]
          simp only []
          rw [ih (i + 1) m]
          constructor
          · rintro ⟨j, hj, hje, hja⟩
            exact ⟨j + 1, by simpa using hj, by simpa using hje, by
              have : i + (j + 1) = i + 1 + j := by omega
              rw [this]; exact hja⟩
          · rintro ⟨j, hj, hje, hja⟩
            match j with
            | 0 =>
                simp only [Nat.add_zero] at hja
                exact absurd hja ha
            | j' + 1 =>
                refine ⟨j', by simpa using hj, by simpa using hje, ?_⟩
                have : i + 1 + j' = i + (j' + 1) := by omega
                rw [this]; exact hja

/-- On an all-disabled qubit list the loop marks everything skipped and
leaves every counter at zero. -/
theorem qarma_execute_loop_all_disabled (funSem : Nat → Nat → Mem → Mem)
    (ctxAlloc : Nat → Bool) :
    ∀ (qs : List QARMA_QUBIT) (i : Nat) (m : Mem),
      (∀ q ∈ qs, q.enabled = false) →
      qarma_execute_loop funSem ctxAlloc qs i m =
        ⟨qs.map (fun q => { q with status := .skipped }), 0, 0, 0, m⟩ := by
  intro qs
  induction qs with
  | nil => intro i m _; simp [qarma_execute_loop]
  | cons q rest ih =>
      intro i m h
      have hq : q.enabled = false := h q (by simp)
      rw [qarma_execute_loop, if_pos hq, ih (i + 1) m (fun x hx => h x (by simp [hx]))]
      simp

/-! ## C10: execute succeeds iff some qubit was dispatched -/

/-- C10. qarma_quantum_execute returns true exactly when the register was not
already executing and at least one enabled qubit had its dispatch context
allocated; re-entry returns false immediately with nothing changed; an
all-disabled register yields false with every qubit marked skipped and the
completion and failure counters at zero. -/
theorem qarma_quantum_execute_success_iff (funSem : Nat → Nat → Mem → Mem)
    (ctxAlloc : Nat → Bool) (reg : QARMA_QUANTUM_REGISTER) (m : Mem) :
    ((qarma_quantum_execute funSem ctxAlloc reg m).1 = true ↔
      (reg.executing = false ∧ ∃ j, j < reg.qubits.length ∧
        (reg.qubits.getD j default).enabled = true ∧ ctxAlloc j = true)) ∧
    (reg.executing = true →
      qarma_quantum_execute funSem ctxAlloc reg m = (false, reg, m)) ∧
    (reg.executing = false → (∀ q ∈ reg.qubits, q.enabled = false) →
      (qarma_quantum_execute funSem ctxAlloc reg m).1 = false ∧
      (∀ q ∈ (qarma_quantum_execute funSem ctxAlloc reg m).2.1.qubits,
        q.status = .skipped) ∧
      (qarma_quantum_execute funSem ctxAlloc reg m).2.1.completed_count = 0 ∧
      (qarma_quantum_execute funSem ctxAlloc reg m).2.1.failed_count = 0) := by
  refine ⟨?_, ?_, ?_⟩
  · by_cases hex : reg.executing
    · simp [qarma_quantum_execute, hex]
    · have h0 := qarma_execute_loop_dispatched_pos funSem ctxAlloc reg.qubits 0 m
      simp only [Nat.zero_add] at h0
      simp [qarma_quantum_execute, hex] at h0 ⊢
      exact h0
  · intro hex
    simp [qarma_quantum_execute, hex]
  · intro hex hdis
    have hl := qarma_execute_loop_all_disabled funSem ctxAlloc reg.qubits 0 m hdis
    refine ⟨?_, ?_, ?_, ?_⟩ <;>
      simp [qarma_quantum_execute, hex, hl]

/-- Witness for C10 at a concrete register: two qubits, the first disabled
and the second enabled, every context allocation succeeding; execute
dispatches the second qubit and returns true. -/
def regExecDemo : QARMA_QUANTUM_REGISTER :=
  { qubits := [{ enabled := false, id := 0 },
               { enabled := true, function := some 0, id := 1 }] }

theorem qarma_quantum_execute_success_iff_witness :
    regExecDemo.executing = false ∧
    (qarma_quantum_execute (fun _ _ m => m) (fun _ => true) regExecDemo
      (fun _ => 0)).1 = true :=
  ⟨by decide,
   (qarma_quantum_execute_success_iff (fun _ _ m => m) (fun _ => true)
      regExecDemo (fun _ => 0)).1.mpr
     ⟨by decide, 1, by decide, by decide, rfl⟩⟩

/-! ## Collapse library (quantum_register.c, built-in collapse implementations) -/

/-- Cast a uint32 bit pattern to a signed int value. -/
def toI32 (n : Nat) : Int :=
  if n % 2 ^ 32 < 2 ^ 31 then (n % 2 ^ 32 : Int) else (n % 2 ^ 32 : Int) - 2 ^ 32

/-- The ubiquitous strict-max scan of the source: walk `idxs`, replacing the
accumulator whenever the score is strictly greater. -/
def argmaxScan (f : Nat → Int) (idxs : List Nat) (init : Int × Nat) :
    Int × Nat :=
  idxs.foldl (fun acc i => if f i > acc.1 then (f i, i) else acc) init

/-- qarma_collapse_first_wins: stores the POINTER results[0] into the output
buffer (`*(void**)output = results[0]`), not the pointed-to bytes. -/
def qarma_collapse_first_wins (results : List Nat) (output : Nat) (m : Mem) :
    Mem :=
  if results.length = 0 ∨ output = 0 then m
  else storePtr32 output (results.headD 0) m

/-- qarma_collapse_last_wins: stores the pointer results[count-1]. -/
def qarma_collapse_last_wins (results : List Nat) (output : Nat) (m : Mem) :
    Mem :=
  if results.length = 0 ∨ output = 0 then m
  else storePtr32 output (results.getD (results.length - 1) 0) m

/-- qarma_collapse_validate: all results must equal results[0] byte-for-byte
over `size` bytes; only then is results[0] copied into the output buffer,
otherwise memory is returned untouched. -/
def qarma_collapse_validate (results : List Nat) (output : Nat) (size : Nat)
    (m : Mem) : Mem :=
  if results.length = 0 ∨ output = 0 ∨ size = 0 then m
  else if (results.drop 1).all (fun ri => memcmpEq m (results.headD 0) ri size)
  then memcpy output (results.headD 0) size m
  else m

/-- The break-on-first-hit cumulative scan of qarma_collapse_fuzzy. -/
def fuzzy_cumulative_select : List Int → Int → Int → Nat → Option Nat
  | [], _, _, _ => none
  | s :: rest, cum, target, i =>
      if cum + s ≥ target then some i
      else fuzzy_cumulative_select rest (cum + s) target (i + 1)

/-- qarma_collapse_fuzzy: scores all results; a linear-congruential value
seeded from scores[0] picks the best result 70% of the time and a
score-weighted index otherwise. -/
def qarma_collapse_fuzzy (results : List Nat) (output : Nat) (size : Nat)
    (evalF : Option (Mem → Nat → Int)) (m : Mem) : Mem :=
  match evalF with
  | none =>
      if results.length ≠ 0 ∧ output ≠ 0 then
        memcpy output (results.headD 0) size m
      else m
  | some f =>
      if results.length = 0 ∨ output = 0 then m
      else
        let count := results.length
        let scores := results.map (f m)
        let total_score := scores.foldl (· + ·) 0
        let best := argmaxScan (fun i => scores.getD i 0) (List.range count)
          (-999999, 0)
        let rand0 := (toU32 (scores.getD 0 0) * 1103515245 + 12345) % 2 ^ 32
        let rand_val := rand0 / 65536 % 100
        let selected :=
          if rand_val < 70 then best.2
          else if total_score > 0 then
            let target := toI32 (rand_val * toU32 total_score % 2 ^ 32 / 100)
            (fuzzy_cumulative_select scores 0 target 0).getD 0
          else rand_val % count
        memcpy output (results.getD selected 0) size m

/-- One candidate step of qarma_collapse_progressive: adopt the candidate if
it scores strictly above the current output score. -/
def progressiveStep (f : Mem → Nat → Int) (results : List Nat)
    (output size : Nat) (acc : Mem × Int) (i : Nat) : Mem × Int :=
  let candidate := f acc.1 (results.getD i 0)
  if candidate > acc.2 then
    (memcpy output (results.getD i 0) size acc.1, candidate)
  else acc

/-- qarma_collapse_progressive: start from results[0]; three rounds of
greedy hill-climbing over results[1..], adopting any strictly better one. -/
def qarma_collapse_progressive (results : List Nat) (output : Nat)
    (size : Nat) (evalF : Option (Mem → Nat → Int)) (m : Mem) : Mem :=
  if results.length = 0 ∨ output = 0 then m
  else
    let m1 := memcpy output (results.headD 0) size m
    match evalF with
    | none => m1
    | some f =>
        let idxs := (List.range results.length).drop 1
        ((List.range 3).foldl
          (fun acc _ => idxs.foldl (progressiveStep f results output size) acc)
          (m1, f m1 output)).1

/-- Validation accumulator of qarma_collapse_speculative:
confirmations, contradictions, best alternative score and index. -/
def speculativeScan (f : Mem → Nat → Int) (results : List Nat) (spec : Int)
    (m1 : Mem) : Nat × Nat × Int × Nat :=
  ((List.range results.length).drop 1).foldl
    (fun acc i =>
      let score := f m1 (results.getD i 0)
      if (score : Rat) ≥ (spec : Rat) * (9 / 10) then
        (acc.1 + 1, acc.2.1, acc.2.2.1, acc.2.2.2)
      else if score > acc.2.2.1 then (acc.1, acc.2.1 + 1, score, i)
      else acc)
    (0, 0, -999999, 0)

/-- qarma_collapse_speculative: adopt results[0]; count confirmations
(score within 90% of the speculative score) and contradictions; roll back to
the best alternative when contradictions outnumber confirmations and the
alternative is strictly better. -/
def qarma_collapse_speculative (results : List Nat) (output : Nat)
    (size : Nat) (evalF : Option (Mem → Nat → Int)) (m : Mem) : Mem :=
  if results.length = 0 ∨ output = 0 then m
  else
    match evalF with
    | none => memcpy output (results.headD 0) size m
    | some f =>
        if results.length < 2 then memcpy output (results.headD 0) size m
        else
          let m1 := memcpy output (results.headD 0) size m
          let spec := f m1 (results.headD 0)
          let scan := speculativeScan f results spec m1
          if scan.2.1 > scan.1 ∧ scan.2.2.1 > spec then
            memcpy output (results.getD scan.2.2.2 0) size m1
          else m1

/-- qarma_collapse_multidim: weighted aggregate of up to three evaluator
dimensions, normalized by the weight sum (C int division), strict max wins. -/
def qarma_collapse_multidim (results : List Nat) (output : Nat) (size : Nat)
    (criteria : Option QARMA_MULTIDIM_CRITERIA) (m : Mem) : Mem :=
  match criteria with
  | none =>
      if results.length ≠ 0 ∧ output ≠ 0 then
        memcpy output (results.headD 0) size m
      else m
  | some c =>
      if results.length = 0 ∨ output = 0 then m
      else
        let tw0 := c.quality_weight + c.speed_weight + c.resource_weight
        let tw := if tw0 = 0 then 1 else tw0
        let agg := fun i =>
          let q := match c.quality_func with
            | some f => f m (results.getD i 0)
            | none => 0
          let s := match c.speed_func with
            | some f => f m (results.getD i 0)
            | none => 0
          let r := match c.resource_func with
            | some f => f m (results.getD i 0)
            | none => 0
          Int.tdiv (q * c.quality_weight + s * c.speed_weight +
            r * c.resource_weight) tw
        let best := argmaxScan agg ((List.range results.length).drop 1)
          (agg 0, 0)
        memcpy output (results.getD best.2 0) size m

/-- qarma_collapse_temporal: blend each current score with its trend against
the stored history, pick the strict max, then overwrite the history with the
current scores. Returns the new memory and the updated history. -/
def qarma_collapse_temporal (results : List Nat) (output : Nat) (size : Nat)
    (evalF : Option (Mem → Nat → Int))
    (history : Option QARMA_TEMPORAL_HISTORY) (m : Mem) :
    Mem × Option QARMA_TEMPORAL_HISTORY :=
  if results.length = 0 ∨ output = 0 then (m, history)
  else
    match history, evalF with
    | some hist, some f =>
        let count := results.length
        let current := fun i => f m (results.getD i 0)
        let temporalScore : Nat → Int :=
          if hist.history_size > 0 ∧ hist.quality_history.isSome then
            fun i =>
              if i < hist.history_size then
                let historical := (hist.quality_history.getD (fun _ => 0)) i
                let trend := current i - historical
                Int.tdiv (current i * (100 - hist.trend_weight) +
                  (current i + trend) * hist.trend_weight) 100
              else current i
          else current
        let best := argmaxScan temporalScore ((List.range count).drop 1)
          (temporalScore 0, 0)
        let m2 := memcpy output (results.getD best.2 0) size m
        let hist2 :=
          { hist with
            history_size :=
              if hist.history_size < count then count else hist.history_size
            quality_history :=
              match hist.quality_history with
              | some qh => some (fun i => if i < count then current i else qh i)
              | none => none }
        (m2, some hist2)
    | _, _ => (memcpy output (results.headD 0) size m, history)

/-- Which result index a sub-strategy selects, as replayed inside
qarma_collapse_ensemble (its big switch; unknown strategies select 0). -/
def ensembleSelectIdx (reg : QARMA_QUANTUM_REGISTER) (results : List Nat)
    (m : Mem) (strat : CollapseStrategy) : Nat :=
  let count := results.length
  match strat with
  | .firstWins => 0
  | .lastWins => count - 1
  | .best =>
      match reg.evaluate with
      | some f =>
          (argmaxScan (fun i => f m (results.getD i 0))
            ((List.range count).drop 1) (f m (results.getD 0 0), 0)).2
      | none => 0
  | .fuzzy =>
      match reg.evaluate with
      | some f =>
          let best := argmaxScan (fun i => f m (results.getD i 0))
            ((List.range count).drop 1) (f m (results.getD 0 0), 0)
          let rand_val := toU32 (best.1 * 1103515245 + 12345) % 100
          if rand_val ≥ 70 then rand_val % count else best.2
      | none => 0
  | .multidim =>
      match reg.multidim with
      | some c =>
          let tw0 := c.quality_weight + c.speed_weight + c.resource_weight
          let tw := if tw0 = 0 then 1 else tw0
          let agg := fun i =>
            let q := match c.quality_func with
              | some f => f m (results.getD i 0)
              | none => 0
            let s := match c.speed_func with
              | some f => f m (results.getD i 0)
              | none => 0
            let r := match c.resource_func with
              | some f => f m (results.getD i 0)
              | none => 0
            Int.tdiv (q * c.quality_weight + s * c.speed_weight +
              r * c.resource_weight) tw
          (argmaxScan agg (List.range count) (-999999, 0)).2
      | none => 0
  | .temporal =>
      match reg.temporal, reg.evaluate with
      | some hist, some f =>
          let score := fun i =>
            let current := f m (results.getD i 0)
            if i < hist.history_size ∧ hist.quality_history.isSome then
              let historical := (hist.quality_history.getD (fun _ => 0)) i
              let trend := current - historical
              Int.tdiv (current * (100 - hist.trend_weight) +
                (current + trend) * hist.trend_weight) 100
            else current
          (argmaxScan score (List.range count) (-999999, 0)).2
      | _, _ => 0
  | _ => 0

/-- qarma_collapse_ensemble: each configured sub-strategy casts its weight as
a vote for the index it would select; the index with the strictly most votes
is copied. -/
def qarma_collapse_ensemble (results : List Nat) (output : Nat) (size : Nat)
    (reg : QARMA_QUANTUM_REGISTER) (m : Mem) : Mem :=
  match reg.ensemble with
  | none =>
      if results.length ≠ 0 ∧ output ≠ 0 then
        memcpy output (results.headD 0) size m
      else m
  | some cfg =>
      if results.length = 0 ∨ output = 0 then m
      else
        let votes : Nat → Int := (List.range cfg.num_strategies).foldl
          (fun v s =>
            let sel := ensembleSelectIdx reg results m (cfg.strategies s)
            fun i => if i = sel then v i + cfg.weights s else v i)
          (fun _ => 0)
        let winner := argmaxScan votes ((List.range results.length).drop 1)
          (votes 0, 0)
        memcpy output (results.getD winner.2 0) size m

/-! ## qarma_quantum_collapse -/

/-- The result-gathering loop of qarma_quantum_collapse: the data pointers of
completed qubits with non-NULL data, in qubit-array order. -/
def gatherResults (reg : QARMA_QUANTUM_REGISTER) : List Nat :=
  reg.qubits.filterMap fun q =>
    if q.status = .completed ∧ q.data ≠ 0 then some q.data else none

/-- Allocation of the collapse output buffer: only when none exists yet and
result_size is positive; the fresh buffer is zeroed. -/
def allocCollapseOutput (reg : QARMA_QUANTUM_REGISTER) (fresh : Nat)
    (m : Mem) : QARMA_QUANTUM_REGISTER × Mem :=
  if reg.collapse_output = 0 ∧ reg.result_size > 0 then
    ({ reg with collapse_output := fresh }, memset0 fresh reg.result_size m)
  else (reg, m)

/-- The strategy switch of qarma_quantum_collapse, with the guards of each
case exactly as in the source. Returns the new memory and the (possibly
updated, for the temporal strategy) history. -/
def applyCollapseStrategy (reg : QARMA_QUANTUM_REGISTER)
    (results : List Nat) (m : Mem) :
    Mem × Option QARMA_TEMPORAL_HISTORY :=
  let out := reg.collapse_output
  let count := results.length
  match reg.strategy with
  | .firstWins =>
      (if count > 0 then qarma_collapse_first_wins results out m else m,
       reg.temporal)
  | .lastWins =>
      (if count > 0 then qarma_collapse_last_wins results out m else m,
       reg.temporal)
  | .best =>
      match reg.evaluate with
      | some f =>
          (if count > 0 then
            let best := argmaxScan (fun i => f m (results.getD i 0))
              ((List.range count).drop 1) (f m (results.getD 0 0), 0)
            if out ≠ 0 ∧ reg.result_size > 0 then
              memcpy out (results.getD best.2 0) reg.result_size m
            else m
          else m, reg.temporal)
      | none => (m, reg.temporal)
  | .vote => (m, reg.temporal)
  | .combine =>
      match reg.combine with
      | some f => (if count > 0 then f results out m else m, reg.temporal)
      | none => (m, reg.temporal)
  | .validate =>
      (if count > 0 ∧ reg.result_size > 0 then
        qarma_collapse_validate results out reg.result_size m
      else m, reg.temporal)
  | .custom =>
      match reg.custom_collapse with
      | some f => (if count > 0 then f results out m else m, reg.temporal)
      | none => (m, reg.temporal)
  | .fuzzy =>
      (if count > 0 ∧ reg.evaluate.isSome then
        qarma_collapse_fuzzy results out reg.result_size reg.evaluate m
      else m, reg.temporal)
  | .progressive =>
      (if count > 0 then
        qarma_collapse_progressive results out reg.result_size reg.evaluate m
      else m, reg.temporal)
  | .speculative =>
      (if count > 0 ∧ reg.evaluate.isSome then
        qarma_collapse_speculative results out reg.result_size reg.evaluate m
      else m, reg.temporal)
  | .multidim =>
      (if count > 0 ∧ reg.multidim.isSome then
        qarma_collapse_multidim results out reg.result_size reg.multidim m
      else m, reg.temporal)
  | .temporal =>
      if count > 0 ∧ reg.temporal.isSome then
        qarma_collapse_temporal results out reg.result_size reg.evaluate
          reg.temporal m
      else (m, reg.temporal)
  | .ensemble =>
      (if count > 0 ∧ reg.ensemble.isSome then
        qarma_collapse_ensemble results out reg.result_size reg m
      else m, reg.temporal)

/-- qarma_quantum_collapse. If already collapsed, return the cached output
pointer with nothing changed. Otherwise gather the completed results,
allocate the output buffer if needed (at `fresh`), run the strategy switch,
and mark the register collapsed. Returns (output pointer, register, memory);
a 0 output pointer stands for the NULL the source can return. -/
def qarma_quantum_collapse (reg : QARMA_QUANTUM_REGISTER) (fresh : Nat)
    (m : Mem) : Nat × QARMA_QUANTUM_REGISTER × Mem :=
  if reg.collapsed then (reg.collapse_output, reg, m)
  else
    let results := gatherResults reg
    let pr := allocCollapseOutput reg fresh m
    let st := applyCollapseStrategy pr.1 results pr.2
    let reg2 := { pr.1 with temporal := st.2, collapsed := true }
    (reg2.collapse_output, reg2, st.1)

/-! ## C3: collapse is idempotent -/

/-- C3. A collapse call leaves the register marked collapsed, and a second
collapse call on its result (with no intervening reset) is the identity: it
returns the same cached output pointer, the same register, and the very same
memory, so the buffer contents are byte-for-byte those of the first call. -/
theorem qarma_quantum_collapse_idempotent (reg : QARMA_QUANTUM_REGISTER)
    (fresh fresh2 : Nat) (m : Mem) :
    (qarma_quantum_collapse reg fresh m).2.1.collapsed = true ∧
    qarma_quantum_collapse (qarma_quantum_collapse reg fresh m).2.1 fresh2
        (qarma_quantum_collapse reg fresh m).2.2 =
      qarma_quantum_collapse reg fresh m := by
  by_cases h : reg.collapsed <;> simp [qarma_quantum_collapse, h]

/-! ## C4: validate copies results[0] exactly when all results match -/

/-- C4. With a non-empty result list, positive size and a non-NULL output:
the all-match check of qarma_collapse_validate holds exactly when every
result equals results[0] byte-for-byte over `size` bytes; when it holds the
output buffer receives a copy of results[0], and on any mismatch the memory
is returned exactly as it was (no byte of the output buffer is modified). -/
theorem qarma_collapse_validate_copies_iff (results : List Nat)
    (output size : Nat) (m : Mem)
    (hne : results ≠ []) (hsz : 0 < size) (hout : output ≠ 0) :
    ((results.drop 1).all
        (fun ri => memcmpEq m (results.headD 0) ri size) = true ↔
      ∀ r ∈ results, ∀ j < size, m (r + j) = m (results.headD 0 + j)) ∧
    ((results.drop 1).all
        (fun ri => memcmpEq m (results.headD 0) ri size) = true →
      qarma_collapse_validate results output size m =
        memcpy output (results.headD 0) size m) ∧
    ((results.drop 1).all
        (fun ri => memcmpEq m (results.headD 0) ri size) = false →
      qarma_collapse_validate results output size m = m) := by
  have hmemcmp : ∀ p q : Nat, memcmpEq m p q size = true ↔
      ∀ i < size, m (p + i) = m (q + i) := by
    intro p q
    simp [memcmpEq, List.all_eq_true]
  refine ⟨?_, ?_, ?_⟩
  · match results with
    | [] => exact absurd rfl hne
    | r0 :: rest =>
        simp only [List.drop_succ_cons, List.drop_zero, List.headD_cons,
          List.all_eq_true, List.mem_cons]
        constructor
        · rintro h r (rfl | hr)
          · intro j _; rfl
          · intro j hj
            exact ((hmemcmp r0 r).mp (h r hr) j hj).symm
        · intro h ri hri
          rw [hmemcmp r0 ri]
          intro i hi
          exact (h ri (Or.inr hri) i hi).symm
  · intro hall
    rw [qarma_collapse_validate, if_neg (by
      push_neg
      exact ⟨by simpa using hne, hout, by omega⟩),
      if_pos hall]
  · intro hfail
    rw [qarma_collapse_validate, if_neg (by
      push_neg
      exact ⟨by simpa using hne, hout, by omega⟩),
      if_neg (by simp only [hfail]; decide)]

/-- Witness for C4: two results whose two bytes agree, so validate copies
results[0] into the output buffer. -/
def memValidateDemo : Mem := fun a => if a < 200 then 5 else 0

theorem qarma_collapse_validate_copies_iff_witness :
    (([10, 20] : List Nat) ≠ [] ∧ 0 < 2 ∧ (100 : Nat) ≠ 0) ∧
    qarma_collapse_validate [10, 20] 100 2 memValidateDemo =
      memcpy 100 (([10, 20] : List Nat).headD 0) 2 memValidateDemo :=
  ⟨by decide,
   (qarma_collapse_validate_copies_iff [10, 20] 100 2 memValidateDemo
      (by decide) (by decide) (by decide)).2.1 (by decide)⟩

/-! ## C5: FirstWins stores the result pointer, not the result bytes -/

/-- One completed qubit whose data lives at address 100 with byte value 42
in the accompanying memory. -/
def regFirstWins : QARMA_QUANTUM_REGISTER :=
  { qubits := [{ enabled := true, status := .completed, function := some 0,
                 data := 100, result_size := 8 }]
    strategy := .firstWins
    result_size := 8
    collapse_output := 0 }

/-- Memory for the C5 counterexample: the qubit result data at 100..107 is
the byte 42. -/
def memC5 : Mem := fun a => if 100 ≤ a ∧ a < 108 then 42 else 0

/-- C5 counterexample. The claim (FirstWins writes the contents of
results[0] into the output buffer, so the buffer holds the same bytes as the
first completed qubit's result data) is false at this input: the result data
byte is 42, but after collapse the output buffer's first byte is 100 — the
low byte of the POINTER results[0], because qarma_collapse_first_wins
executes `*(void**)output = results[0]` instead of copying bytes. -/
theorem qarma_collapse_first_wins_stores_pointer :
    (qarma_quantum_collapse regFirstWins 200 memC5).2.2 200 = 100 ∧
    memC5 100 = 42 ∧
    (qarma_quantum_collapse regFirstWins 200 memC5).2.2 200 ≠ memC5 100 := by
  refine ⟨?_, ?_, ?_⟩ <;> decide

/-- C5 amended. Under the FirstWins strategy, collapse writes the 32-bit
pointer value results[0] — the address of the first completed qubit's data,
little-endian — into the first four bytes of the output buffer; the
pointed-to bytes themselves are not copied. -/
theorem qarma_quantum_collapse_first_wins_writes_pointer
    (reg : QARMA_QUANTUM_REGISTER) (fresh : Nat) (m : Mem)
    (hcol : reg.collapsed = false) (hstrat : reg.strategy = .firstWins)
    (hres : gatherResults reg ≠ [])
    (hout : (allocCollapseOutput reg fresh m).1.collapse_output ≠ 0) :
    ∀ j < 4,
      (qarma_quantum_collapse reg fresh m).2.2
          ((allocCollapseOutput reg fresh m).1.collapse_output + j) =
        (gatherResults reg).headD 0 / 256 ^ j % 256 := by
  intro j hj
  have hstrat2 :
      (allocCollapseOutput reg fresh m).1.strategy =
        CollapseStrategy.firstWins := by
    unfold allocCollapseOutput
    split <;> simpa using hstrat
  rw [qarma_quantum_collapse, if_neg (by simp [hcol])]
  simp only []
  rw [applyCollapseStrategy]
  rw [hstrat2]
  simp only []
  rw [if_pos (by simpa using List.length_pos.mpr hres)]
  rw [qarma_collapse_first_wins,
    if_neg (by push_neg; exact ⟨by simpa using hres, hout⟩)]
  rw [storePtr32]
  rw [if_pos (by omega)]
  simp

/-- Witness for the C5 amended theorem at the concrete register: after
collapse the first output byte is the low byte of the address 100. -/
theorem qarma_quantum_collapse_first_wins_writes_pointer_witness :
    (regFirstWins.collapsed = false ∧
     regFirstWins.strategy = .firstWins ∧
     gatherResults regFirstWins ≠ [] ∧
     (allocCollapseOutput regFirstWins 200 memC5).1.collapse_output ≠ 0) ∧
    (qarma_quantum_collapse regFirstWins 200 memC5).2.2
        ((allocCollapseOutput regFirstWins 200 memC5).1.collapse_output + 0) =
      (gatherResults regFirstWins).headD 0 / 256 ^ 0 % 256 :=
  ⟨⟨by decide, by decide, by decide, by decide⟩,
   qarma_quantum_collapse_first_wins_writes_pointer regFirstWins 200 memC5
     (by decide) (by decide) (by decide) (by decide) 0 (by decide)⟩

/-! ## C1: wait ignores its timeout and can spin forever -/

/-- A register with one enabled qubit and no completions: is_complete is
false and stays false while wait spins. -/
def regWaitStuck : QARMA_QUANTUM_REGISTER :=
  { qubits := [{ enabled := true, status := .pending, function := some 0 }] }

/-- C1. The claim (wait returns failure once timeout_ms elapses instead of
polling forever) is violated: on a register that never becomes complete,
qarma_quantum_wait never returns for any number of loop iterations and any
timeout value, because the loop body is empty and timeout_ms is explicitly
discarded. -/
theorem qarma_quantum_wait_never_returns :
    ∀ (fuel timeout_ms : Nat),
      qarma_quantum_wait_fuel fuel regWaitStuck timeout_ms = none := by
  intro fuel timeout_ms
  have hnc : qarma_quantum_is_complete regWaitStuck = false := by decide
  induction fuel with
  | zero => simp [qarma_quantum_wait_fuel, hnc]
  | succ f ih => simpa [qarma_quantum_wait_fuel, hnc] using ih

/-! ## C6: a failed qarma_qubit_init leaves the qubit mutated and enabled -/

/-- Fresh one-qubit register, as qarma_quantum_register_create(1) returns. -/
def regInitOne : QARMA_QUANTUM_REGISTER :=
  (qarma_quantum_register_create 1).getD default

/-- C6. The claim (whenever qarma_qubit_init returns false the qubit is left
not enabled and unchanged) is violated on the allocation-failure path: with a
valid index and function but a failing result-buffer allocation, the call
returns false yet the qubit has already been given the new function and data
and been marked enabled, because the source mutates the qubit before
attempting the allocation. -/
theorem qarma_qubit_init_alloc_failure_mutates :
    (qarma_qubit_init regInitOne 0 (some 1) 500 8 false 600 (fun _ => 0)).1
      = false ∧
    ((qarma_qubit_init regInitOne 0 (some 1) 500 8 false 600
        (fun _ => 0)).2.1.qubits.getD 0 default).enabled = true ∧
    ((qarma_qubit_init regInitOne 0 (some 1) 500 8 false 600
        (fun _ => 0)).2.1.qubits.getD 0 default).function = some 1 ∧
    ((regInitOne.qubits.getD 0 default).enabled = false ∧
     (regInitOne.qubits.getD 0 default).function = none) := by
  refine ⟨?_, ?_, ?_, ?_, ?_⟩ <;> decide

/-! ## Predictive scheduler (quantum_scheduler.c) -/

/-- quantum_schedule_strategy_t. -/
inductive ScheduleStrategy where
  | sequential
  | randomOrder
  | longestFirst
  | shortestFirst
  | balanced
  | aiPredicted
deriving DecidableEq, Repr, Inhabited

/-- qubit_prediction_t (confidence is a C float, modelled as Rat). -/
structure qubit_prediction_t where
  qubit_index : Nat := 0
  predicted_time_ms : Nat := 0
  confidence : Rat := 0
  complexity_score : Nat := 0
deriving DecidableEq, Repr, Inhabited

/-- One entry of the learned_patterns table. -/
structure learned_pattern_t where
  data_size : Nat := 0
  avg_time_ms : Nat := 0
  sample_count : Nat := 0
deriving DecidableEq, Repr, Inhabited

/-- quantum_scheduler_t (the global g_scheduler). -/
structure quantum_scheduler_t where
  strategy : ScheduleStrategy := .aiPredicted
  predictions : List qubit_prediction_t := []
  prediction_count : Nat := 0
  learned_patterns : List learned_pattern_t := []
  total_scheduled : Nat := 0
  predictions_accurate : Nat := 0
  avg_prediction_error : Rat := 0
deriving Inhabited

/-- estimate_complexity: data_size * 10 in uint32 arithmetic. -/
def estimate_complexity (data_size : Nat) : Nat := data_size * 10 % 2 ^ 32

/-- lookup_learned_time: first pattern whose data_size matches exactly, else
0 (also the answer when a matching pattern has average 0). -/
def lookup_learned_time (patterns : List learned_pattern_t)
    (data_size : Nat) : Nat :=
  match patterns.find? (fun p => p.data_size == data_size) with
  | some p => p.avg_time_ms
  | none => 0

/-- quantum_scheduler_predict: one prediction per qubit i. With a learned
time the prediction is that time at confidence 0.8; otherwise the heuristic
complexity/100 clamped up to 1 at confidence 0.3 (complexity being
result_size * 10). -/
def quantum_scheduler_predict (sched : quantum_scheduler_t)
    (reg : QARMA_QUANTUM_REGISTER) : quantum_scheduler_t :=
  { sched with
    predictions := (List.range reg.qubits.length).map fun i =>
      if 0 < lookup_learned_time sched.learned_patterns
          (reg.qubits.getD i default).result_size then
        { qubit_index := i
          predicted_time_ms := lookup_learned_time sched.learned_patterns
            (reg.qubits.getD i default).result_size
          confidence := 8 / 10
          complexity_score :=
            estimate_complexity (reg.qubits.getD i default).result_size }
      else
        { qubit_index := i
          predicted_time_ms :=
            max (estimate_complexity
              (reg.qubits.getD i default).result_size / 100) 1
          confidence := 3 / 10
          complexity_score :=
            estimate_complexity (reg.qubits.getD i default).result_size }
    prediction_count := reg.qubits.length
    total_scheduled := sched.total_scheduled + reg.qubits.length }

/-- getD through a map over List.range. -/
theorem getD_map_range {α : Type} (n : Nat) (f : Nat → α) (i : Nat) (d : α)
    (h : i < n) : ((List.range n).map f).getD i d = f i := by
  rw [List.getD_eq_getElem?_getD, List.getElem?_map, List.getElem?_range h]
  rfl

/-! ## C9: what predict actually computes -/

/-- Empty scheduler state, as after quantum_scheduler_init. -/
def schedEmpty : quantum_scheduler_t := {}

/-- Register with one qubit of result_size 100 for the C9 counterexample. -/
def regSched : QARMA_QUANTUM_REGISTER :=
  { qubits := [{ enabled := true, function := some 0, result_size := 100 }] }

/-- C9 counterexample. The claim (no learned pattern means predicted_time_ms
= result_size * 10) is false at result_size = 100 with an empty pattern
table: the code predicts complexity/100 = (100*10)/100 = 10 ms, not 1000. -/
theorem quantum_scheduler_predict_not_size_times_ten :
    ((quantum_scheduler_predict schedEmpty regSched).predictions.getD 0
        default).predicted_time_ms = 10 ∧
    ((quantum_scheduler_predict schedEmpty regSched).predictions.getD 0
        default).predicted_time_ms ≠ 100 * 10 := by
  refine ⟨?_, ?_⟩ <;> decide

/-- C9 amended. For qubit i: with no learned pattern for its result_size
(lookup yields 0), the prediction is the heuristic
max(result_size * 10 / 100, 1) — integer division, so about result_size/10,
not result_size*10 — at confidence 0.3, with complexity_score =
result_size * 10; with a learned pattern of positive average, the prediction
is that running-average time at confidence 0.8. -/
theorem quantum_scheduler_predict_spec (sched : quantum_scheduler_t)
    (reg : QARMA_QUANTUM_REGISTER) (i : Nat) (h : i < reg.qubits.length) :
    (lookup_learned_time sched.learned_patterns
        (reg.qubits.getD i default).result_size = 0 →
      (quantum_scheduler_predict sched reg).predictions.getD i default =
        { qubit_index := i
          predicted_time_ms :=
            max ((reg.qubits.getD i default).result_size * 10 % 2 ^ 32 / 100) 1
          confidence := 3 / 10
          complexity_score :=
            (reg.qubits.getD i default).result_size * 10 % 2 ^ 32 }) ∧
    (0 < lookup_learned_time sched.learned_patterns
        (reg.qubits.getD i default).result_size →
      (quantum_scheduler_predict sched reg).predictions.getD i default =
        { qubit_index := i
          predicted_time_ms :=
            lookup_learned_time sched.learned_patterns
              (reg.qubits.getD i default).result_size
          confidence := 8 / 10
          complexity_score :=
            (reg.qubits.getD i default).result_size * 10 % 2 ^ 32 }) := by
  constructor
  · intro hl
    show ((List.range reg.qubits.length).map _).getD i default = _
    rw [getD_map_range _ _ _ _ h]
    rw [if_neg (by rw [hl]; decide)]
    rfl
  · intro hl
    show ((List.range reg.qubits.length).map _).getD i default = _
    rw [getD_map_range _ _ _ _ h]
    rw [if_pos hl]
    rfl

/-- Scheduler with one learned pattern for the C9 witness. -/
def schedLearned : quantum_scheduler_t :=
  { learned_patterns := [{ data_size := 64, avg_time_ms := 7,
                           sample_count := 3 }] }

/-- Register with one qubit of result_size 64 for the C9 witness. -/
def regSchedLearned : QARMA_QUANTUM_REGISTER :=
  { qubits := [{ enabled := true, function := some 0, result_size := 64 }] }

theorem quantum_scheduler_predict_spec_witness :
    (0 < 1 ∧
     0 < lookup_learned_time schedLearned.learned_patterns
          (regSchedLearned.qubits.getD 0 default).result_size) ∧
    (quantum_scheduler_predict schedLearned regSchedLearned).predictions.getD
        0 default =
      { qubit_index := 0
        predicted_time_ms := lookup_learned_time schedLearned.learned_patterns
          (regSchedLearned.qubits.getD 0 default).result_size
        confidence := 8 / 10
        complexity_score :=
          (regSchedLearned.qubits.getD 0 default).result_size * 10 % 2 ^ 32 } :=
  ⟨⟨by decide, by decide⟩,
   (quantum_scheduler_predict_spec schedLearned regSchedLearned 0
      (by decide)).2 (by decide)⟩

/-! ## AI observer (quantum AI observer module) -/

/-- quantum_workload_profile_t. -/
structure quantum_workload_profile_t where
  qubit_count : Nat := 0
  avg_execution_time : Nat := 0
  variance : Nat := 0
  has_evaluation : Bool := false
  requires_all : Bool := false
  data_size : Nat := 0
deriving DecidableEq, Repr, Inhabited

/-- strategy_metrics_t (float avg_quality as Rat). -/
structure strategy_metrics_t where
  total_uses : Nat := 0
  success_count : Nat := 0
  total_time : Nat := 0
  avg_quality : Rat := 0
  last_used : Nat := 0
deriving DecidableEq, Repr, Inhabited

/-- quantum_learning_entry_t: a profile plus one metrics slot per strategy
(the C array metrics[COLLAPSE_STRATEGY_COUNT]). -/
structure quantum_learning_entry_t where
  profile : quantum_workload_profile_t := {}
  metrics : List strategy_metrics_t := List.replicate 13 {}
  observation_count : Nat := 0
  confidence : Rat := 0
deriving DecidableEq, Repr, Inhabited

/-- quantum_ai_observer_t (the global g_observer); db_size is the list
length. -/
structure quantum_ai_observer_t where
  learning_db : List quantum_learning_entry_t := []
  db_capacity : Nat := 0
  enabled : Bool := true
  total_observations : Nat := 0
deriving Inhabited

/-- profile_similarity: weighted blend of qubit-count closeness (0.3),
execution-time ratio (0.25, only when both positive), the two boolean flags
(0.15 each) and data-size ratio (0.15, only when both positive), normalized
by the weights that contributed. -/
def profile_similarity (a b : quantum_workload_profile_t) : Rat :=
  let qubit_diff : Rat :=
    ((if a.qubit_count > b.qubit_count then a.qubit_count - b.qubit_count
      else b.qubit_count - a.qubit_count : Nat) : Rat)
  let qubit_sim : Rat := if qubit_diff < 10 then 1 - qubit_diff / 10 else 0
  let p2 : Rat × Rat :=
    if a.avg_execution_time > 0 ∧ b.avg_execution_time > 0 then
      let ratio : Rat := (a.avg_execution_time : Rat) / b.avg_execution_time
      ((if ratio > 1 then 1 / ratio else ratio) * (25 / 100), 25 / 100)
    else (0, 0)
  let p3 : Rat × Rat :=
    if a.has_evaluation = b.has_evaluation then (15 / 100, 15 / 100)
    else (0, 0)
  let p4 : Rat × Rat :=
    if a.requires_all = b.requires_all then (15 / 100, 15 / 100) else (0, 0)
  let p5 : Rat × Rat :=
    if a.data_size > 0 ∧ b.data_size > 0 then
      let ratio : Rat := (a.data_size : Rat) / b.data_size
      ((if ratio > 1 then 1 / ratio else ratio) * (15 / 100), 15 / 100)
    else (0, 0)
  let similarity := qubit_sim * (3 / 10) + p2.1 + p3.1 + p4.1 + p5.1
  let weight_sum := 3 / 10 + p2.2 + p3.2 + p4.2 + p5.2
  if weight_sum > 0 then similarity / weight_sum else 0

/-- The linear best-match scan shared by find_or_create_entry and
quantum_ai_recommend_strategy: highest strictly-improving similarity, with
the entry index; (none, 0) when nothing beats similarity 0. -/
def find_best_match (db : List quantum_learning_entry_t)
    (p : quantum_workload_profile_t) : Option Nat × Rat :=
  (List.range db.length).foldl
    (fun acc i =>
      if profile_similarity p ((db.getD i default).profile) > acc.2 then
        (some i, profile_similarity p ((db.getD i default).profile))
      else acc)
    (none, 0)

/-- A freshly created learning entry: the profile, zeroed metrics for all 13
strategies, no observations, confidence 0. -/
def new_learning_entry (p : quantum_workload_profile_t) :
    quantum_learning_entry_t :=
  { profile := p, metrics := List.replicate 13 {}, observation_count := 0,
    confidence := 0 }

/-- Appending a new entry, including the capacity doubling (initial 32);
allocation is assumed to succeed. Returns the new entry index. -/
def observer_append_entry (obs : quantum_ai_observer_t)
    (p : quantum_workload_profile_t) : Nat × quantum_ai_observer_t :=
  let cap :=
    if obs.learning_db.length ≥ obs.db_capacity then
      if obs.db_capacity = 0 then 32 else obs.db_capacity * 2
    else obs.db_capacity
  (obs.learning_db.length,
   { obs with learning_db := obs.learning_db ++ [new_learning_entry p],
              db_capacity := cap })

/-- find_or_create_entry: reuse the best match at similarity at least 0.8,
else create a new entry. -/
def find_or_create_entry (obs : quantum_ai_observer_t)
    (p : quantum_workload_profile_t) : Nat × quantum_ai_observer_t :=
  let best := find_best_match obs.learning_db p
  match best.1 with
  | some i => if best.2 ≥ 8 / 10 then (i, obs) else observer_append_entry obs p
  | none => observer_append_entry obs p

/-- quantum_ai_profile_register. Durations are uint32 truncations of
end_time - start_time (truncated Nat subtraction standing in for the
unsigned wraparound, which the claims never exercise); data_size is left 0
as in the source (TODO there). -/
def quantum_ai_profile_register (reg : QARMA_QUANTUM_REGISTER) :
    quantum_workload_profile_t :=
  let durations : List Nat := reg.qubits.filterMap fun q =>
    if q.status = .completed then some ((q.end_time - q.start_time) % 2 ^ 32)
    else none
  let completed : Nat := durations.length
  let total_time : Nat := durations.foldl (· + ·) 0 % 2 ^ 32
  let avg : Nat := if completed > 0 then total_time / completed else 0
  let variance_sum :=
    (durations.foldl (fun acc d => acc + ((d : Int) - (avg : Int)).natAbs ^ 2)
      (0 : Nat)) % 2 ^ 32
  { qubit_count := reg.qubits.length
    avg_execution_time := avg
    variance := if completed > 0 then variance_sum / completed else 0
    has_evaluation := reg.evaluate.isSome
    requires_all := reg.wait_for_all
    data_size := 0 }

/-- The per-strategy metrics update of quantum_ai_observe_complete:
one more use, a success when the register had collapsed, accumulated time,
and an EMA of the quality with alpha = 0.3. -/
def updated_metrics (ms : strategy_metrics_t) (collapsed : Bool)
    (elapsed_ms : Nat) (quality : Rat) (total_obs : Nat) :
    strategy_metrics_t :=
  { total_uses := ms.total_uses + 1
    success_count := ms.success_count + (if collapsed then 1 else 0)
    total_time := ms.total_time + elapsed_ms
    avg_quality := ms.avg_quality * (1 - 3 / 10) + quality * (3 / 10)
    last_used := total_obs }

/-- quantum_ai_observe_complete: profile the register, find or create the
entry, update the used strategy metrics (the strategy tag is always below
COLLAPSE_STRATEGY_COUNT for a valid enum value, so the C guard holds), bump
the observation count and recompute the confidence with the source ternary
`count >= 10 ? 1 - 1/count : count/10`. -/
def quantum_ai_observe_complete (obs : quantum_ai_observer_t)
    (reg : QARMA_QUANTUM_REGISTER) (elapsed_ms : Nat) (quality : Rat) :
    quantum_ai_observer_t :=
  if obs.enabled = false then obs
  else
    let p := quantum_ai_profile_register reg
    let fc := find_or_create_entry obs p
    let entry := fc.2.learning_db.getD fc.1 default
    let entry1 := { entry with
      metrics := entry.metrics.set (strategyIdx reg.strategy)
        (updated_metrics (entry.metrics.getD (strategyIdx reg.strategy)
          default) reg.collapsed elapsed_ms quality
          fc.2.total_observations) }
    let entry2 := { entry1 with
      observation_count := entry1.observation_count + 1
      confidence :=
        if entry1.observation_count + 1 ≥ 10 then
          1 - 1 / ((entry1.observation_count + 1 : Nat) : Rat)
        else ((entry1.observation_count + 1 : Nat) : Rat) / 10 }
    { fc.2 with learning_db := fc.2.learning_db.set fc.1 entry2
                total_observations := fc.2.total_observations + 1 }

/-! ## C2: the confidence formula -/

/-- What the source confidence update computes as a function of the new
observation count: n/10 below 10 observations, 1 - 1/n from 10 on. -/
def confFormula (n : Nat) : Rat :=
  if n ≥ 10 then 1 - 1 / (n : Rat) else (n : Rat) / 10

/-- Monotonicity of the implemented confidence ramp. -/
theorem confFormula_mono (n : Nat) : confFormula n ≤ confFormula (n + 1) := by
  unfold confFormula
  by_cases h2 : n ≥ 10
  · rw [if_pos h2, if_pos (by omega)]
    have hn : (0 : Rat) < (n : Rat) := by
      have : (0 : Nat) < n := by omega
      exact_mod_cast this
    have hle : (n : Rat) ≤ ((n + 1 : Nat) : Rat) := by push_cast; linarith
    have := one_div_le_one_div_of_le hn hle
    linarith
  · by_cases h1 : n + 1 ≥ 10
    · have hn : n = 9 := by omega
      subst hn
      norm_num
    · rw [if_neg h2, if_neg h1]
      have hle : (n : Rat) ≤ ((n + 1 : Nat) : Rat) := by push_cast; linarith
      gcongr

/-- Membership in the database after find_or_create_entry: either an old
entry or the freshly created one. -/
theorem find_or_create_entry_mem (obs : quantum_ai_observer_t)
    (p : quantum_workload_profile_t) (x : quantum_learning_entry_t)
    (hx : x ∈ (find_or_create_entry obs p).2.learning_db) :
    x ∈ obs.learning_db ∨ x = new_learning_entry p := by
  simp only [find_or_create_entry] at hx
  split at hx
  · split at hx
    · exact Or.inl hx
    · simp only [observer_append_entry, List.mem_append,
        List.mem_singleton] at hx
      exact hx
  · simp only [observer_append_entry, List.mem_append,
      List.mem_singleton] at hx
    exact hx

/-- C2 amended theorem. If every learning entry satisfies
confidence = confFormula observation_count, so does every entry after a
quantum_ai_observe_complete call (newly created entries start at
confFormula 0 = 0; the updated entry gets confFormula of its incremented
count); the formula never decreases with n; and at the 10th observation it
equals 9/10 — not 1. -/
theorem quantum_ai_observe_complete_confidence_spec
    (obs : quantum_ai_observer_t) (reg : QARMA_QUANTUM_REGISTER)
    (elapsed_ms : Nat) (quality : Rat)
    (hinv : ∀ e ∈ obs.learning_db,
      e.confidence = confFormula e.observation_count) :
    (∀ e ∈ (quantum_ai_observe_complete obs reg elapsed_ms quality).learning_db,
      e.confidence = confFormula e.observation_count) ∧
    (∀ n, confFormula n ≤ confFormula (n + 1)) ∧
    confFormula 10 = 9 / 10 := by
  refine ⟨?_, confFormula_mono, by norm_num [confFormula]⟩
  intro e he
  by_cases hen : obs.enabled = false
  · rw [quantum_ai_observe_complete, if_pos hen] at he
    exact hinv e he
  · rw [quantum_ai_observe_complete, if_neg hen] at he
    simp only [] at he
    have hmem := List.mem_or_eq_of_mem_set he
    rcases hmem with hmem | rfl
    · rcases find_or_create_entry_mem obs (quantum_ai_profile_register reg) e
        hmem with h | rfl
      · exact hinv e h
      · simp [new_learning_entry, confFormula]
    · rfl

/-- Witness for the C2 amended theorem: applying it to the empty observer
(whose database trivially satisfies the invariant) and a concrete register. -/
def obsInit : quantum_ai_observer_t := {}

/-- One-qubit completed register used to drive observe_complete. -/
def regObserve : QARMA_QUANTUM_REGISTER :=
  { qubits := [{ enabled := true, function := some 0, status := .completed }]
    collapsed := true }

theorem quantum_ai_observe_complete_confidence_spec_witness :
    (∀ e ∈ obsInit.learning_db,
      e.confidence = confFormula e.observation_count) ∧
    ((∀ e ∈ (quantum_ai_observe_complete obsInit regObserve 5 1).learning_db,
        e.confidence = confFormula e.observation_count) ∧
      (∀ n, confFormula n ≤ confFormula (n + 1)) ∧
      confFormula 10 = 9 / 10) :=
  ⟨by intro e he; simp [obsInit] at he,
   quantum_ai_observe_complete_confidence_spec obsInit regObserve 5 1
     (by intro e he; simp [obsInit] at he)⟩

/-- The workload profile quantum_ai_profile_register extracts from
regObserve: one qubit, zero timings, no evaluator, wait_for_all set. -/
def pObs : quantum_workload_profile_t :=
  { qubit_count := 1, avg_execution_time := 0, variance := 0,
    has_evaluation := false, requires_all := true, data_size := 0 }

theorem profile_regObserve : quantum_ai_profile_register regObserve = pObs := by
  decide

/-- A profile is fully similar to itself (here at the concrete profile:
qubit closeness 0.3 and the two flags 0.15 + 0.15 contribute, the zero
times and sizes do not, so 0.6/0.6 = 1). -/
theorem profile_similarity_self_pObs : profile_similarity pObs pObs = 1 := by
  norm_num [profile_similarity, pObs]

theorem find_best_match_singleton (e : quantum_learning_entry_t)
    (hp : e.profile = pObs) : find_best_match [e] pObs = (some 0, 1) := by
  unfold find_best_match
  norm_num [List.range_succ, hp, profile_similarity_self_pObs]

/-- Iterated observation of the same register from a fresh observer. -/
def iterObserve : Nat → quantum_ai_observer_t
  | 0 => obsInit
  | k + 1 => quantum_ai_observe_complete (iterObserve k) regObserve 5 1

/-- Trace invariant for the iterated observation: a single entry holding
pObs with k observations and the implemented confidence. -/
def obsTraceP (obs : quantum_ai_observer_t) (k : Nat) : Prop :=
  obs.enabled = true ∧ obs.learning_db.length = 1 ∧
  (obs.learning_db.getD 0 default).profile = pObs ∧
  (obs.learning_db.getD 0 default).observation_count = k ∧
  (obs.learning_db.getD 0 default).confidence = confFormula k

theorem observe_base : obsTraceP (iterObserve 1) 1 :=
  ⟨rfl, rfl, rfl, rfl, rfl⟩

theorem observe_step (obs : quantum_ai_observer_t) (k : Nat)
    (h : obsTraceP obs k) :
    obsTraceP (quantum_ai_observe_complete obs regObserve 5 1) (k + 1) := by
  obtain ⟨hen, hlen, hprof, hcount, hconf⟩ := h
  obtain ⟨e, hdb⟩ := List.length_eq_one.mp hlen
  have hget : obs.learning_db.getD 0 default = e := by rw [hdb]; rfl
  have hpe : e.profile = pObs := by rw [← hget]; exact hprof
  have hce : e.observation_count = k := by rw [← hget]; exact hcount
  have hfc : find_or_create_entry obs
      (quantum_ai_profile_register regObserve) = (0, obs) := by
    rw [profile_regObserve]
    unfold find_or_create_entry
    rw [hdb, find_best_match_singleton e hpe]
    norm_num
  unfold quantum_ai_observe_complete
  rw [if_neg (by simp [hen])]
  simp only []
  rw [hfc]
  simp only []
  rw [hdb]
  refine ⟨hen, by simp, ?_, ?_, ?_⟩
  · simp [hpe]
  · simp [hce]
  · simp [hce, confFormula]

/-- C2 counterexample. After exactly 10 observations of the same workload
profile from a fresh observer, the single entry has observation_count 10 and
confidence 9/10, not min(1, 10/10) = 1: the source computes 1 - 1/n from the
10th observation on, so full confidence is never reached. -/
theorem quantum_ai_confidence_after_ten_not_one :
    ((iterObserve 10).learning_db.getD 0 default).observation_count = 10 ∧
    ((iterObserve 10).learning_db.getD 0 default).confidence = 9 / 10 ∧
    ((iterObserve 10).learning_db.getD 0 default).confidence ≠
      min 1 ((10 : Rat) / 10) := by
  have hP : ∀ j, obsTraceP (iterObserve (j + 1)) (j + 1) := by
    intro j
    induction j with
    | zero => exact observe_base
    | succ j ih => exact observe_step _ _ ih
  obtain ⟨_, _, _, hcount, hconf⟩ := hP 9
  refine ⟨hcount, ?_, ?_⟩
  · rw [hconf]; norm_num [confFormula]
  · rw [hconf]; norm_num [confFormula]

/-! ## Adaptive controller (quantum adaptive execution module) -/

/-- The static DEFAULT_THRESHOLDS. -/
def DEFAULT_THRESHOLDS : quantum_adaptive_thresholds_t :=
  { timeout_ms := 5000, failure_threshold := 3 / 10,
    quality_threshold := 1 / 2, check_interval_ms := 100 }

/-- quantum_adaptive_init: installs a fresh adaptive state with the default
thresholds (allocation assumed to succeed). -/
def quantum_adaptive_init (reg : QARMA_QUANTUM_REGISTER)
    (policy : AdaptivePolicy) : QARMA_QUANTUM_REGISTER :=
  let st : quantum_adaptive_state_t :=
    { policy := policy
      thresholds := DEFAULT_THRESHOLDS
      execution_start_time := 0
      last_check_time := 0
      switch_count := 0
      original_strategy := reg.strategy
      current_strategy := reg.strategy
      has_switched := false
      completed_at_last_check := 0
      failed_at_last_check := 0
      current_quality := 1 }
  { reg with adaptive_state := some st }

/-- quantum_adaptive_reset. -/
def quantum_adaptive_reset (reg : QARMA_QUANTUM_REGISTER) :
    QARMA_QUANTUM_REGISTER :=
  match reg.adaptive_state with
  | none => reg
  | some st =>
      let st2 : quantum_adaptive_state_t :=
        { st with
          execution_start_time := 0
          last_check_time := 0
          switch_count := 0
          current_strategy := st.original_strategy
          has_switched := false
          completed_at_last_check := 0
          failed_at_last_check := 0
          current_quality := 1 }
      { reg with strategy := st.original_strategy, adaptive_state := some st2 }

/-- The static-heuristic arm of quantum_ai_recommend_strategy. -/
def heuristic_recommend (p : quantum_workload_profile_t) : CollapseStrategy :=
  if p.has_evaluation then .best
  else if p.requires_all then .combine
  else if p.variance < 100 then .firstWins
  else .validate

/-- quantum_ai_recommend_strategy: heuristics when no entry matches at
similarity 0.8 with confidence 0.5, else the strategy maximizing
avg_quality * success_rate / (avg_time + 1) over the used strategies. -/
def quantum_ai_recommend_strategy (obs : quantum_ai_observer_t)
    (p : quantum_workload_profile_t) : CollapseStrategy :=
  if obs.enabled = false then .firstWins
  else
    let best := find_best_match obs.learning_db p
    match best.1 with
    | none => heuristic_recommend p
    | some i =>
        if best.2 < 8 / 10 ∨
            (obs.learning_db.getD i default).confidence < 1 / 2 then
          heuristic_recommend p
        else
          ((List.range 13).foldl
            (fun acc j =>
              let ms := (obs.learning_db.getD i default).metrics.getD j default
              if ms.total_uses = 0 then acc
              else
                let success_rate : Rat :=
                  (ms.success_count : Rat) / ms.total_uses
                let avg_time : Rat := (ms.total_time : Rat) / ms.total_uses
                if ms.avg_quality * success_rate / (avg_time + 1) > acc.1 then
                  (ms.avg_quality * success_rate / (avg_time + 1),
                   strategyOfIdx j)
                else acc)
            (0, CollapseStrategy.firstWins)).2

/-- choose_alternative_strategy: the AI recommendation, round-robined to the
next strategy (modulo COLLAPSE_STRATEGY_COUNT - 1) when it matches the
current one. -/
def choose_alternative_strategy (obs : quantum_ai_observer_t)
    (reg : QARMA_QUANTUM_REGISTER) (state : quantum_adaptive_state_t) :
    CollapseStrategy :=
  let profile := quantum_ai_profile_register reg
  let recommended := quantum_ai_recommend_strategy obs profile
  if recommended = state.current_strategy then
    strategyOfIdx ((strategyIdx state.current_strategy + 1) %
      (COLLAPSE_STRATEGY_COUNT - 1))
  else recommended

/-- The policy trigger test of quantum_adaptive_check over the live counters
(completion_rate and failure_rate as in the source, elapsed always 100 under
the simulated clock current_time = execution_start_time + 100). Division by
a zero qubit count (impossible for created registers) yields Rat 0 where C
floats would give inf/NaN. -/
def adaptive_should_switch (reg : QARMA_QUANTUM_REGISTER)
    (st1 : quantum_adaptive_state_t) : Bool :=
  let current_time := st1.execution_start_time + 100
  let elapsed := current_time - st1.execution_start_time
  let completion_rate : Rat :=
    (reg.completed_count : Rat) / (reg.qubits.length : Rat)
  let failure_rate : Rat :=
    if reg.completed_count + reg.failed_count > 0 then
      (reg.failed_count : Rat) /
        ((reg.completed_count + reg.failed_count : Nat) : Rat)
    else 0
  match st1.policy with
  | .timeout =>
      decide (elapsed > st1.thresholds.timeout_ms) &&
      decide (completion_rate < 1 / 2)
  | .failureRate =>
      decide (failure_rate > st1.thresholds.failure_threshold)
  | .quality =>
      decide (st1.current_quality < st1.thresholds.quality_threshold)
  | .aggressive =>
      (decide ((elapsed : Rat) >
          (st1.thresholds.timeout_ms : Rat) * (5 / 10)) &&
       decide (completion_rate < 3 / 10)) ||
      decide (failure_rate > st1.thresholds.failure_threshold * (7 / 10))
  | .nonePolicy => false

/-- quantum_adaptive_check. Returns (switched, updated register). Early
false without mutation when there is no adaptive state, the register is not
executing, the policy is None, or the check interval has not elapsed (the
simulated clock makes current_time = execution_start_time + 100 at every
call). On a trigger with has_switched still clear, the strategy is replaced
and the switch recorded; otherwise the progress snapshot is updated. -/
def quantum_adaptive_check (obs : quantum_ai_observer_t)
    (reg : QARMA_QUANTUM_REGISTER) : Bool × QARMA_QUANTUM_REGISTER :=
  match reg.adaptive_state with
  | none => (false, reg)
  | some st =>
      if reg.executing = false then (false, reg)
      else if st.policy = .nonePolicy then (false, reg)
      else if st.execution_start_time + 100 - st.last_check_time <
          st.thresholds.check_interval_ms then (false, reg)
      else
        let st1 : quantum_adaptive_state_t :=
          { st with last_check_time := st.execution_start_time + 100 }
        if adaptive_should_switch reg st1 && !st1.has_switched then
          let ns := choose_alternative_strategy obs reg st1
          let stSwitched : quantum_adaptive_state_t :=
            { st1 with
              current_strategy := ns
              has_switched := true
              switch_count := st1.switch_count + 1 }
          (true, { reg with strategy := ns, adaptive_state := some stSwitched })
        else
          let stChecked : quantum_adaptive_state_t :=
            { st1 with
              completed_at_last_check := reg.completed_count
              failed_at_last_check := reg.failed_count }
          (false, { reg with adaptive_state := some stChecked })

/-- Iterated periodic checks during one execution. -/
def iterAdaptiveCheck (obs : quantum_ai_observer_t) :
    Nat → QARMA_QUANTUM_REGISTER → QARMA_QUANTUM_REGISTER
  | 0, reg => reg
  | n + 1, reg => iterAdaptiveCheck obs n (quantum_adaptive_check obs reg).2

/-- The switch counter of a register (0 without adaptive state). -/
def adaptiveSwitchCount (reg : QARMA_QUANTUM_REGISTER) : Nat :=
  match reg.adaptive_state with
  | some st => st.switch_count
  | none => 0

/-- Invariant: the adaptive state has switched at most once, and a cleared
has_switched flag means no switch has been recorded. -/
def adaptiveAtMostOnce (reg : QARMA_QUANTUM_REGISTER) : Prop :=
  ∀ st, reg.adaptive_state = some st →
    st.switch_count ≤ 1 ∧ (st.has_switched = false → st.switch_count = 0)

/-- One check preserves the at-most-once invariant: a switch only happens
with has_switched still false (hence switch_count 0), and it sets the flag. -/
theorem quantum_adaptive_check_preserves (obs : quantum_ai_observer_t)
    (reg : QARMA_QUANTUM_REGISTER) (h : adaptiveAtMostOnce reg) :
    adaptiveAtMostOnce (quantum_adaptive_check obs reg).2 := by
  intro st2 hst2
  rcases ha : reg.adaptive_state with _ | st
  · unfold quantum_adaptive_check at hst2
    rw [ha] at hst2
    exact h st2 hst2
  · unfold quantum_adaptive_check at hst2
    rw [ha] at hst2
    simp only [] at hst2
    by_cases h1 : reg.executing = false
    · rw [if_pos h1] at hst2
      exact h st2 hst2
    · rw [if_neg h1] at hst2
      by_cases h2 : st.policy = .nonePolicy
      · rw [if_pos h2] at hst2
        exact h st2 hst2
      · rw [if_neg h2] at hst2
        by_cases h3 : st.execution_start_time + 100 - st.last_check_time <
            st.thresholds.check_interval_ms
        · rw [if_pos h3] at hst2
          exact h st2 hst2
        · rw [if_neg h3] at hst2
          by_cases h4 : (adaptive_should_switch reg
              { st with last_check_time := st.execution_start_time + 100 } &&
              !st.has_switched) = true
          · rw [if_pos h4] at hst2
            simp only [Option.some.injEq] at hst2
            simp only [Bool.and_eq_true, Bool.not_eq_true'] at h4
            have hc0 : st.switch_count = 0 := (h st ha).2 h4.2
            rw [← hst2]
            exact ⟨by simp [hc0], by simp⟩
          · rw [if_neg h4] at hst2
            simp only [Option.some.injEq] at hst2
            rw [← hst2]
            exact ⟨(h st ha).1, (h st ha).2⟩

/-- Iterated checks preserve the at-most-once invariant. -/
theorem iterAdaptiveCheck_preserves (obs : quantum_ai_observer_t) :
    ∀ (n : Nat) (reg : QARMA_QUANTUM_REGISTER), adaptiveAtMostOnce reg →
      adaptiveAtMostOnce (iterAdaptiveCheck obs n reg) := by
  intro n
  induction n with
  | zero => intro reg h; exact h
  | succ n ih =>
      intro reg h
      exact ih _ (quantum_adaptive_check_preserves obs reg h)

/-- A check inside the check interval changes nothing and reports false. -/
theorem quantum_adaptive_check_gated (obs : quantum_ai_observer_t)
    (reg : QARMA_QUANTUM_REGISTER) (st : quantum_adaptive_state_t)
    (hst : reg.adaptive_state = some st)
    (hgate : st.execution_start_time + 100 - st.last_check_time <
      st.thresholds.check_interval_ms) :
    quantum_adaptive_check obs reg = (false, reg) := by
  unfold quantum_adaptive_check
  rw [hst]
  simp only []
  by_cases h1 : reg.executing = false
  · rw [if_pos h1]
  · rw [if_neg h1]
    by_cases h2 : st.policy = .nonePolicy
    · rw [if_pos h2]
    · rw [if_neg h2, if_pos hgate]

/-- The first check after init under the FailureRate policy with the default
thresholds fires and switches: the result register reports the switch, keeps
executing, and carries an adaptive state with switch_count 1, the flag set,
and last_check_time moved to 100 (so every later check is gated). -/
theorem quantum_adaptive_check_fires (obs : quantum_ai_observer_t)
    (reg : QARMA_QUANTUM_REGISTER) (st : quantum_adaptive_state_t)
    (hst : reg.adaptive_state = some st)
    (hsw : st.has_switched = false) (hc0 : st.switch_count = 0)
    (hex : reg.executing = true) (hpol : st.policy = .failureRate)
    (hth : st.thresholds = DEFAULT_THRESHOLDS)
    (hstart : st.execution_start_time = 0) (hlast : st.last_check_time = 0)
    (hpos : 0 < reg.completed_count + reg.failed_count)
    (hrate : (reg.failed_count : Rat) /
      ((reg.completed_count + reg.failed_count : Nat) : Rat) > 3 / 10) :
    (quantum_adaptive_check obs reg).1 = true ∧
    (quantum_adaptive_check obs reg).2.executing = true ∧
    ∃ st2, (quantum_adaptive_check obs reg).2.adaptive_state = some st2 ∧
      st2.switch_count = 1 ∧ st2.has_switched = true ∧
      st2.execution_start_time = 0 ∧ st2.last_check_time = 100 ∧
      st2.thresholds = DEFAULT_THRESHOLDS := by
  have hcond : (adaptive_should_switch reg
      { st with last_check_time := st.execution_start_time + 100 } &&
      !({ st with
          last_check_time := st.execution_start_time + 100 }).has_switched)
      = true := by
    have hshould : adaptive_should_switch reg
        { st with last_check_time := st.execution_start_time + 100 } = true := by
      unfold adaptive_should_switch
      simp only [hpol]
      rw [if_pos hpos]
      simp only [hth]
      exact decide_eq_true (by simpa [DEFAULT_THRESHOLDS] using hrate)
    rw [hsw] at hshould
    simp [hshould, hsw]
  unfold quantum_adaptive_check
  rw [hst]
  simp only []
  rw [if_neg (by simp [hex])]
  rw [if_neg (by simp [hpol])]
  rw [if_neg (by rw [hstart, hlast, hth]; decide)]
  rw [if_pos hcond]
  refine ⟨rfl, hex, ?_⟩
  refine ⟨_, rfl, ?_, ?_, ?_, ?_, ?_⟩
  · simp [hc0]
  · rfl
  · simpa using hstart
  · simpa using hstart
  · simpa using hth

/-- C8. From an adaptive state with the switch flag clear and counter zero
(as quantum_adaptive_init and quantum_adaptive_reset install), any number of
quantum_adaptive_check calls records at most one switch; and with the
FailureRate policy at the default thresholds firing at the very first check
(failure rate above 0.3), any positive number of checks during the execution
records exactly one switch. -/
theorem quantum_adaptive_single_switch (obs : quantum_ai_observer_t)
    (reg : QARMA_QUANTUM_REGISTER) (st : quantum_adaptive_state_t) (n : Nat)
    (hst : reg.adaptive_state = some st)
    (hsw : st.has_switched = false) (hc0 : st.switch_count = 0) :
    adaptiveSwitchCount (iterAdaptiveCheck obs n reg) ≤ 1 ∧
    (reg.executing = true → st.policy = .failureRate →
      st.thresholds = DEFAULT_THRESHOLDS →
      st.execution_start_time = 0 → st.last_check_time = 0 →
      0 < reg.completed_count + reg.failed_count →
      (reg.failed_count : Rat) /
        ((reg.completed_count + reg.failed_count : Nat) : Rat) > 3 / 10 →
      adaptiveSwitchCount (iterAdaptiveCheck obs (n + 1) reg) = 1) := by
  constructor
  · have hinv : adaptiveAtMostOnce reg := by
      intro st' hst'
      rw [hst] at hst'
      injection hst' with h
      subst h
      exact ⟨by omega, fun _ => hc0⟩
    have hiter := iterAdaptiveCheck_preserves obs n reg hinv
    rcases h2 : (iterAdaptiveCheck obs n reg).adaptive_state with _ | st2
    · simp [adaptiveSwitchCount, h2]
    · simpa [adaptiveSwitchCount, h2] using (hiter st2 h2).1
  · intro hex hpol hth hstart hlast hpos hrate
    obtain ⟨hfire1, hfex, st2, hst2, hsc, hhs, hses, hlc, hthr⟩ :=
      quantum_adaptive_check_fires obs reg st hst hsw hc0 hex hpol hth
        hstart hlast hpos hrate
    have hfix : ∀ (m : Nat) (r : QARMA_QUANTUM_REGISTER)
        (s : quantum_adaptive_state_t), r.adaptive_state = some s →
        s.execution_start_time = 0 → s.last_check_time = 100 →
        s.thresholds = DEFAULT_THRESHOLDS →
        iterAdaptiveCheck obs m r = r := by
      intro m
      induction m with
      | zero => intro r s _ _ _ _; rfl
      | succ m ih =>
          intro r s h1 h2 h3 h4
          have hg := quantum_adaptive_check_gated obs r s h1
            (by rw [h2, h3, h4]; decide)
          show iterAdaptiveCheck obs m (quantum_adaptive_check obs r).2 = r
          rw [hg]
          exact ih r s h1 h2 h3 h4
    show adaptiveSwitchCount
      (iterAdaptiveCheck obs n (quantum_adaptive_check obs reg).2) = 1
    rw [hfix n _ st2 hst2 hses hlc hthr]
    unfold adaptiveSwitchCount
    rw [hst2]
    exact hsc

/-- Initial adaptive state for the C8 witness: FailureRate policy, default
thresholds, fresh counters. -/
def stAdaptive : quantum_adaptive_state_t :=
  { policy := .failureRate, thresholds := DEFAULT_THRESHOLDS }

/-- Executing one-qubit register whose only qubit failed: failure rate 1. -/
def regAdaptive : QARMA_QUANTUM_REGISTER :=
  { qubits := [{ enabled := true, function := some 0 }]
    executing := true
    completed_count := 0
    failed_count := 1
    adaptive_state := some stAdaptive }

theorem quantum_adaptive_single_switch_witness :
    (regAdaptive.adaptive_state = some stAdaptive ∧
     stAdaptive.has_switched = false ∧ stAdaptive.switch_count = 0 ∧
     regAdaptive.executing = true ∧
     (regAdaptive.failed_count : Rat) /
       ((regAdaptive.completed_count + regAdaptive.failed_count : Nat) : Rat) >
       3 / 10) ∧
    adaptiveSwitchCount (iterAdaptiveCheck obsInit (0 + 1) regAdaptive) = 1 :=
  ⟨⟨rfl, rfl, rfl, rfl, by norm_num [regAdaptive]⟩,
   (quantum_adaptive_single_switch obsInit regAdaptive stAdaptive 0 rfl rfl
      rfl).2 rfl rfl rfl rfl rfl (by norm_num [regAdaptive])
      (by norm_num [regAdaptive])⟩

/-! ## C7: qubit status transitions across the public operations -/

/-- The forward status order of the spec invariant: Pending may move
anywhere, Running only to Completed or Failed, and Completed, Failed and
Skipped are terminal. -/
def statusLE : QubitStatus → QubitStatus → Bool
  | .pending, _ => true
  | .running, .running => true
  | .running, .completed => true
  | .running, .failed => true
  | s, t => s == t

theorem statusLE_refl (s : QubitStatus) : statusLE s s = true := by
  cases s <;> rfl

theorem statusLE_trans (a b c : QubitStatus) (h1 : statusLE a b = true)
    (h2 : statusLE b c = true) : statusLE a c = true := by
  revert h1 h2
  cases a <;> cases b <;> cases c <;> decide

/-- The public register operations of the claim (reset excluded), with the
allocation oracles and the function-pointer semantics each call needs. -/
inductive RegOp where
  | initQubit (index : Nat) (function : Option Nat) (data : Nat)
      (result_size : Nat) (allocOk : Bool) (fresh : Nat)
  | setEnabled (index : Nat) (enabled : Bool)
  | execute (funSem : Nat → Nat → Mem → Mem) (ctxAlloc : Nat → Bool)
  | collapse (fresh : Nat)

/-- Applying one public operation to register and memory. -/
def applyRegOp : RegOp → QARMA_QUANTUM_REGISTER × Mem →
    QARMA_QUANTUM_REGISTER × Mem
  | .initQubit i f d s ok fr, (reg, m) =>
      ((qarma_qubit_init reg i f d s ok fr m).2.1,
       (qarma_qubit_init reg i f d s ok fr m).2.2)
  | .setEnabled i b, (reg, m) => (qarma_qubit_set_enabled reg i b, m)
  | .execute fs ca, (reg, m) =>
      ((qarma_quantum_execute fs ca reg m).2.1,
       (qarma_quantum_execute fs ca reg m).2.2)
  | .collapse fr, (reg, m) =>
      ((qarma_quantum_collapse reg fr m).2.1,
       (qarma_quantum_collapse reg fr m).2.2)

/-- Running a sequence of public operations. -/
def runOps (ops : List RegOp) (s : QARMA_QUANTUM_REGISTER × Mem) :
    QARMA_QUANTUM_REGISTER × Mem :=
  ops.foldl (fun acc op => applyRegOp op acc) s

/-- Trace for the C7 counterexample: configure qubit 0, execute it to
completion, then disable it. -/
def opsC7complete : List RegOp :=
  [.initQubit 0 (some 1) 5 0 true 0, .execute (fun _ _ m => m) (fun _ => true)]

def opsC7regress : List RegOp :=
  opsC7complete ++ [.setEnabled 0 false]

/-- C7 counterexample. The claim (statuses never regress under sequences of
init_qubit, set_enabled, execute and collapse) is false: after a qubit
completes, qarma_qubit_set_enabled(…, false) unconditionally stamps it
Skipped, a transition Completed→Skipped outside the forward order. -/
theorem qubit_status_regression :
    ((runOps opsC7complete (regInitOne, fun _ => 0)).1.qubits.getD 0
        default).status = .completed ∧
    ((runOps opsC7regress (regInitOne, fun _ => 0)).1.qubits.getD 0
        default).status = .skipped ∧
    statusLE .completed .skipped = false := by
  refine ⟨?_, ?_, ?_⟩ <;> decide

/-- Well-formedness carried along traces: a disabled qubit is Pending or
Skipped, an enabled one Pending or Completed. -/
def qubitInv (q : QARMA_QUBIT) : Prop :=
  (q.enabled = false → q.status = .pending ∨ q.status = .skipped) ∧
  (q.enabled = true → q.status = .pending ∨ q.status = .completed)

instance (q : QARMA_QUBIT) : Decidable (qubitInv q) := by
  unfold qubitInv; infer_instance

theorem qubitInv_default : qubitInv (default : QARMA_QUBIT) := by decide

/-- All qubits of the register are well-formed. -/
def regInv (reg : QARMA_QUANTUM_REGISTER) : Prop :=
  ∀ i, i < reg.qubits.length → qubitInv (reg.qubits.getD i default)

instance (reg : QARMA_QUANTUM_REGISTER) : Decidable (regInv reg) := by
  unfold regInv
  infer_instance

/-- The restriction the counterexample forces: init_qubit and set_enabled
touch only still-Pending qubits, and execute dispatch allocations succeed. -/
def GoodOp (reg : QARMA_QUANTUM_REGISTER) : RegOp → Prop
  | .initQubit i _ _ _ _ _ =>
      i < reg.qubits.length → (reg.qubits.getD i default).status = .pending
  | .setEnabled i _ =>
      i < reg.qubits.length → (reg.qubits.getD i default).status = .pending
  | .execute _ ctxAlloc => ∀ j, j < reg.qubits.length → ctxAlloc j = true
  | .collapse _ => True

instance (reg : QARMA_QUANTUM_REGISTER) (op : RegOp) :
    Decidable (GoodOp reg op) := by
  cases op <;> (unfold GoodOp; infer_instance)

/-- All operations of a trace satisfy the restriction at their application
point. -/
def GoodTrace : QARMA_QUANTUM_REGISTER × Mem → List RegOp → Prop
  | _, [] => True
  | s, op :: rest => GoodOp s.1 op ∧ GoodTrace (applyRegOp op s) rest

/-- getD after set at the written index. -/
theorem getD_set_self {α : Type} (l : List α) (i : Nat) (a d : α)
    (h : i < l.length) : (l.set i a).getD i d = a := by
  rw [List.getD_eq_getElem?_getD, List.getElem?_set_eq_of_lt a h]
  rfl

/-- getD after set at another index. -/
theorem getD_set_ne {α : Type} (l : List α) (i j : Nat) (a d : α)
    (h : i ≠ j) : (l.set i a).getD j d = l.getD j d := by
  rw [List.getD_eq_getElem?_getD, List.getElem?_set_ne h,
    ← List.getD_eq_getElem?_getD]

/-- getD out of range. -/
theorem getD_of_le {α : Type} (l : List α) (i : Nat) (d : α)
    (h : l.length ≤ i) : l.getD i d = d := by
  rw [List.getD_eq_getElem?_getD, List.getElem?_eq_none h]
  rfl

/-- What the dispatch loop does to one qubit, as a function of its context
allocation outcome (the wrapper result does not depend on the memory). -/
def execStep (allocOk : Bool) (q : QARMA_QUBIT) : QARMA_QUBIT :=
  if q.enabled = false then { q with status := .skipped }
  else if allocOk then
    match q.function with
    | none => q
    | some _ => { q with status := .completed, start_time := 0, end_time := 0 }
  else { q with status := .failed }

theorem qarma_execute_loop_qubits_length (funSem : Nat → Nat → Mem → Mem)
    (ctxAlloc : Nat → Bool) :
    ∀ (qs : List QARMA_QUBIT) (i : Nat) (m : Mem),
      (qarma_execute_loop funSem ctxAlloc qs i m).qubits.length = qs.length := by
  intro qs
  induction qs with
  | nil => intro i m; rfl
  | cons q rest ih =>
      intro i m
      by_cases hq : q.enabled = false
      · rw [qarma_execute_loop, if_pos hq]
        simpa using ih (i + 1) m
      · by_cases ha : ctxAlloc i
        · rw [qarma_execute_loop, if_neg hq, if_pos ha]
          simpa using ih (i + 1) _
        · rw [qarma_execute_loop, if_neg hq, if_neg ha]
          simpa using ih (i + 1) m

theorem qarma_execute_loop_qubits_getD (funSem : Nat → Nat → Mem → Mem)
    (ctxAlloc : Nat → Bool) :
    ∀ (qs : List QARMA_QUBIT) (i : Nat) (m : Mem) (j : Nat),
      j < qs.length →
      (qarma_execute_loop funSem ctxAlloc qs i m).qubits.getD j default =
        execStep (ctxAlloc (i + j)) (qs.getD j default) := by
  intro qs
  induction qs with
  | nil => intro i m j hj; exact absurd hj (by simp)
  | cons q rest ih =>
      intro i m j hj
      by_cases hq : q.enabled = false
      · rw [qarma_execute_loop, if_pos hq]
        match j with
        | 0 => simp [execStep, hq]
        | j + 1 =>
            have := ih (i + 1) m j (by simpa using hj)
            simpa [Nat.add_assoc, Nat.add_comm 1 j] using this
      · have hq2 : q.enabled = true := by
          cases h : q.enabled
          · exact absurd h hq
          · rfl
        by_cases ha : ctxAlloc i
        · rw [qarma_execute_loop, if_neg hq, if_pos ha]
          match j with
          | 0 =>
              simp only [List.getD_cons_zero, Nat.add_zero]
              rw [execStep, if_neg (by simp [hq2]), if_pos ha]
              cases hf : q.function <;>
                simp [qubit_execute_wrapper, hf]
          | j + 1 =>
              have := ih (i + 1) (qubit_execute_wrapper funSem q m).2.2 j
                (by simpa using hj)
              simpa [Nat.add_assoc, Nat.add_comm 1 j] using this
        · rw [qarma_execute_loop, if_neg hq, if_neg ha]
          match j with
          | 0 =>
              simp only [List.getD_cons_zero, Nat.add_zero]
              rw [execStep, if_neg (by simp [hq2]), if_neg ha]
          | j + 1 =>
              have := ih (i + 1) m j (by simpa using hj)
              simpa [Nat.add_assoc, Nat.add_comm 1 j] using this

/-- A Bool cannot be both true and false. -/
theorem bool_tf_absurd {C : Prop} {b : Bool} (h1 : b = true)
    (h2 : b = false) : C := by
  rw [h1] at h2
  cases h2

/-- qarma_qubit_init either rejects the call (register unchanged) or writes
qubit `index` as an enabled, pending qubit. -/
theorem qarma_qubit_init_reg_cases (reg : QARMA_QUANTUM_REGISTER)
    (i : Nat) (f : Option Nat) (d s : Nat) (ok : Bool) (fr : Nat) (m : Mem) :
    (qarma_qubit_init reg i f d s ok fr m).2.1 = reg ∨
    (i < reg.qubits.length ∧ ∃ Q : QARMA_QUBIT, Q.status = .pending ∧
      Q.enabled = true ∧
      (qarma_qubit_init reg i f d s ok fr m).2.1 = setQubit reg i Q) := by
  unfold qarma_qubit_init
  by_cases hg : i ≥ reg.qubits.length ∨ f = none
  · rw [if_pos hg]
    exact Or.inl rfl
  · rw [if_neg hg]
    push_neg at hg
    refine Or.inr ⟨by omega, ?_⟩
    by_cases hs : s > 0
    · rw [if_pos hs]
      unfold qubit_allocate_result
      rw [if_neg (by omega)]
      by_cases hok : ok
      · rw [if_pos hok]
        exact ⟨_, rfl, rfl, rfl⟩
      · rw [if_neg hok]
        exact ⟨_, rfl, rfl, rfl⟩
    · rw [if_neg hs]
      exact ⟨_, rfl, rfl, rfl⟩

/-- qarma_qubit_set_enabled either rejects the index or writes qubit `index`
with the flag set (status untouched) or cleared (status stamped Skipped). -/
theorem qarma_qubit_set_enabled_reg_cases (reg : QARMA_QUANTUM_REGISTER)
    (i : Nat) (b : Bool) :
    qarma_qubit_set_enabled reg i b = reg ∨
    (i < reg.qubits.length ∧ ∃ Q : QARMA_QUBIT,
      ((Q.status = (reg.qubits.getD i default).status ∧ Q.enabled = true) ∨
       (Q.status = .skipped ∧ Q.enabled = false)) ∧
      qarma_qubit_set_enabled reg i b = setQubit reg i Q) := by
  unfold qarma_qubit_set_enabled
  by_cases hg : i ≥ reg.qubits.length
  · rw [if_pos hg]
    exact Or.inl rfl
  · rw [if_neg hg]
    refine Or.inr ⟨by omega, ?_⟩
    cases b
    · exact Exists.intro { reg.qubits.getD i default with enabled := false, status := .skipped } ⟨Or.inr ⟨rfl, rfl⟩, rfl⟩
    · exact Exists.intro { reg.qubits.getD i default with enabled := true } ⟨Or.inl ⟨rfl, rfl⟩, rfl⟩

/-- qarma_quantum_collapse never touches the qubit array. -/
theorem qarma_quantum_collapse_qubits (reg : QARMA_QUANTUM_REGISTER)
    (fresh : Nat) (m : Mem) :
    (qarma_quantum_collapse reg fresh m).2.1.qubits = reg.qubits := by
  have halloc : (allocCollapseOutput reg fresh m).1.qubits = reg.qubits := by
    unfold allocCollapseOutput
    split <;> rfl
  unfold qarma_quantum_collapse
  split
  · rfl
  · simpa using halloc

/-- One restricted operation moves every status forward and preserves the
well-formedness invariant. -/
theorem applyRegOp_status_monotone (op : RegOp)
    (reg : QARMA_QUANTUM_REGISTER) (m : Mem)
    (hinv : regInv reg) (hgood : GoodOp reg op) :
    (∀ i, statusLE (reg.qubits.getD i default).status
      ((applyRegOp op (reg, m)).1.qubits.getD i default).status = true) ∧
    regInv (applyRegOp op (reg, m)).1 := by
  -- a common consequence for operations writing one pending-or-skipped qubit
  have hsetQ : ∀ (i : Nat) (Q : QARMA_QUBIT), i < reg.qubits.length →
      statusLE (reg.qubits.getD i default).status Q.status = true →
      qubitInv Q →
      (∀ idx, statusLE (reg.qubits.getD idx default).status
        ((setQubit reg i Q).qubits.getD idx default).status = true) ∧
      regInv (setQubit reg i Q) := by
    intro i Q hi hle hQinv
    constructor
    · intro idx
      by_cases hidx : i = idx
      · subst hidx
        rw [show (setQubit reg i Q).qubits = reg.qubits.set i Q from rfl,
          getD_set_self _ _ _ _ hi]
        exact hle
      · rw [show (setQubit reg i Q).qubits = reg.qubits.set i Q from rfl,
          getD_set_ne _ _ _ _ _ hidx]
        exact statusLE_refl _
    · intro idx hlen
      rw [show (setQubit reg i Q).qubits = reg.qubits.set i Q from rfl] at hlen ⊢
      rw [List.length_set] at hlen
      by_cases hidx : i = idx
      · subst hidx
        rw [getD_set_self _ _ _ _ hi]
        exact hQinv
      · rw [getD_set_ne _ _ _ _ _ hidx]
        exact hinv idx hlen
  cases op with
  | initQubit i f d s ok fr =>
      rcases qarma_qubit_init_reg_cases reg i f d s ok fr m with heq |
        ⟨hi, Q, hQs, hQe, heq⟩
      · show (∀ idx, statusLE _ (((qarma_qubit_init reg i f d s ok fr
          m).2.1).qubits.getD idx default).status = true) ∧
          regInv (qarma_qubit_init reg i f d s ok fr m).2.1
        rw [heq]
        exact ⟨fun idx => statusLE_refl _, hinv⟩
      · show (∀ idx, statusLE _ (((qarma_qubit_init reg i f d s ok fr
          m).2.1).qubits.getD idx default).status = true) ∧
          regInv (qarma_qubit_init reg i f d s ok fr m).2.1
        rw [heq]
        refine hsetQ i Q hi ?_ ?_
        · rw [hgood hi, hQs]
          rfl
        · exact ⟨fun h => bool_tf_absurd hQe h, fun _ => Or.inl hQs⟩
  | setEnabled i b =>
      rcases qarma_qubit_set_enabled_reg_cases reg i b with heq |
        ⟨hi, Q, hQ, heq⟩
      · show (∀ idx, statusLE _ ((qarma_qubit_set_enabled reg i
          b).qubits.getD idx default).status = true) ∧
          regInv (qarma_qubit_set_enabled reg i b)
        rw [heq]
        exact ⟨fun idx => statusLE_refl _, hinv⟩
      · show (∀ idx, statusLE _ ((qarma_qubit_set_enabled reg i
          b).qubits.getD idx default).status = true) ∧
          regInv (qarma_qubit_set_enabled reg i b)
        rw [heq]
        rcases hQ with ⟨hQs, hQe⟩ | ⟨hQs, hQe⟩
        · refine hsetQ i Q hi ?_ ?_
          · rw [hQs]
            exact statusLE_refl _
          · refine ⟨fun h => bool_tf_absurd hQe h, fun _ => ?_⟩
            rw [hQs, hgood hi]
            exact Or.inl rfl
        · refine hsetQ i Q hi ?_ ?_
          · rw [hgood hi, hQs]
            rfl
          · exact ⟨fun _ => Or.inr hQs, fun h => bool_tf_absurd h hQe⟩
  | execute fs ca =>
      show (∀ idx, statusLE _ (((qarma_quantum_execute fs ca reg
        m).2.1).qubits.getD idx default).status = true) ∧
        regInv (qarma_quantum_execute fs ca reg m).2.1
      by_cases hex : reg.executing
      · rw [qarma_quantum_execute, if_pos hex]
        exact ⟨fun idx => statusLE_refl _, hinv⟩
      · rw [qarma_quantum_execute, if_neg hex]
        simp only []
        have hlen := qarma_execute_loop_qubits_length fs ca reg.qubits 0 m
        constructor
        · intro idx
          by_cases hidx : idx < reg.qubits.length
          · rw [qarma_execute_loop_qubits_getD fs ca reg.qubits 0 m idx hidx]
            simp only [Nat.zero_add]
            have hca : ca idx = true := hgood idx hidx
            have hq := hinv idx hidx
            rw [execStep, hca]
            rcases h : (reg.qubits.getD idx default).enabled
            · rw [if_pos rfl]
              rcases hq.1 h with hp | hp <;> rw [hp] <;> rfl
            · rw [if_neg (by simp), if_pos rfl]
              rcases hf : (reg.qubits.getD idx default).function with _ | v
              · exact statusLE_refl _
              · rcases hq.2 h with hp | hp <;> rw [hp] <;> rfl
          · rw [getD_of_le _ _ _ (by omega),
              getD_of_le _ _ _ (by rw [hlen]; omega)]
            rfl
        · intro idx hidx
          rw [hlen] at hidx
          rw [qarma_execute_loop_qubits_getD fs ca reg.qubits 0 m idx hidx]
          simp only [Nat.zero_add]
          have hca : ca idx = true := hgood idx hidx
          have hq := hinv idx hidx
          rw [execStep, hca]
          rcases h : (reg.qubits.getD idx default).enabled
          · rw [if_pos rfl]
            exact ⟨fun _ => Or.inr rfl, fun hh => Bool.noConfusion hh⟩
          · rw [if_neg (by simp), if_pos rfl]
            rcases hf : (reg.qubits.getD idx default).function with _ | v
            · exact hq
            · exact ⟨fun hh => Bool.noConfusion hh, fun _ => Or.inr rfl⟩
  | collapse fr =>
      show (∀ idx, statusLE _ (((qarma_quantum_collapse reg fr
        m).2.1).qubits.getD idx default).status = true) ∧
        regInv (qarma_quantum_collapse reg fr m).2.1
      have hq := qarma_quantum_collapse_qubits reg fr m
      constructor
      · intro idx
        rw [hq]
        exact statusLE_refl _
      · intro idx hidx
        rw [hq] at hidx ⊢
        exact hinv idx hidx

/-- C7 amended. Provided init_qubit and set_enabled are applied only to
qubits whose status is still Pending and every execute dispatch allocation
succeeds, each qubit's status only moves forward along
Pending→Running→{Completed,Failed}, or Pending→Skipped, across any sequence
of the public operations (reset excluded); without that restriction,
disabling or re-initializing a finished qubit regresses its status (see the
Completed→Skipped counterexample). -/
theorem register_status_monotone (ops : List RegOp) :
    ∀ (reg : QARMA_QUANTUM_REGISTER) (m : Mem), regInv reg →
      GoodTrace (reg, m) ops →
      ∀ i, statusLE (reg.qubits.getD i default).status
        ((runOps ops (reg, m)).1.qubits.getD i default).status = true := by
  induction ops with
  | nil => intro reg m _ _ i; exact statusLE_refl _
  | cons op rest ih =>
      intro reg m hinv hgood i
      obtain ⟨hop, hrest⟩ := hgood
      have hstep := applyRegOp_status_monotone op reg m hinv hop
      have hrec := ih (applyRegOp op (reg, m)).1 (applyRegOp op (reg, m)).2
        hstep.2 hrest i
      exact statusLE_trans _ _ _ (hstep.1 i) hrec

/-- Witness for the C7 amended theorem: the restricted configure-then-execute
trace on a one-qubit register satisfies the side conditions, and its qubit
moves forward (Pending to Completed). -/
theorem register_status_monotone_witness :
    (regInv regInitOne ∧
     GoodTrace (regInitOne, (fun _ => 0 : Mem)) opsC7complete) ∧
    statusLE ((regInitOne.qubits.getD 0 default).status)
      (((runOps opsC7complete (regInitOne, fun _ => 0)).1.qubits.getD 0
        default).status) = true :=
  ⟨⟨by decide, ⟨by decide, by decide, trivial⟩⟩,
   register_status_monotone opsC7complete regInitOne (fun _ => 0) (by decide)
     ⟨by decide, by decide, trivial⟩ 0⟩

end QARMA
